import Mathlib

/-!
Verification of the Hou interpreter (a Monkey dialect): a shallow embedding
of its lexer, Pratt parser, object system, environment chain and tree-walking
evaluator, followed by theorems settling the specification claims.

The embedding follows the current revision of each component:
the evaluator of `evaluator/evaluator.go` with environments and error
handling (src/unnamed/part_008, first file), the environment with an outer
reference (src/unnamed/part_004), the object system with String/Function
(src/object/object.go, extended by Array of src/unnamed/part_002), the lexer
with two-character operators and strings (src/unnamed/part_005), the parser
(src/parser/parser.go) and the token set (src/unnamed/part_000).

Go interface values may be nil, so every spot typed `object.Object` or an
AST interface in Go is modelled as an `Option` with `none` for Go's nil.
Go runtime panics (nil dereference, index out of range, division by zero)
are modelled as an explicit `panic` outcome, distinct from every returned
value.  The Go recursion of `Eval` is unbounded; the model bounds it with a
fuel argument, and running out of fuel is an explicit outcome `fuelOut`
distinct from every behaviour of the program.
-/

mutual

/-- Expressions of the Hou AST (package ast; the node structs are declared in
ast/ast.go and used throughout parser and evaluator).  Each Go node also
carries the token that introduced it; the token is irrelevant to every
theorem below and is omitted.  `ifExpr`'s branches and `functionLiteral`'s
body are `*ast.BlockStatement`s, modelled as their statement lists, and a
parameter list is the list of the identifiers' names. -/
inductive Expr : Type where
  | identifier (value : String)
  | integerLiteral (value : Int)
  | stringLiteral (value : String)
  | boolean (value : Bool)
  | prefixExpr (operator : String) (right : Expr)
  | infixExpr (operator : String) (left : Expr) (right : Expr)
  | ifExpr (condition : Expr) (consequence : List Stmt)
      (alternative : Option (List Stmt))
  | functionLiteral (parameters : List String) (body : List Stmt)
  | callExpr (function : Expr) (arguments : List Expr)
deriving Repr

/-- Statements of the Hou AST (LetStatement, ReturnStatement,
ExpressionStatement). -/
inductive Stmt : Type where
  | letStmt (name : String) (value : Expr)
  | returnStmt (returnValue : Expr)
  | exprStmt (expression : Expr)
deriving Repr

end

/-- The `ast.Node` values `Eval` dispatches on: a Program, a BlockStatement,
a statement or an expression. -/
inductive Node : Type where
  | program (statements : List Stmt)
  | block (statements : List Stmt)
  | stmt (s : Stmt)
  | expr (e : Expr)
deriving Repr

/-- Runtime objects (package object).  `array` is the Array object of the
full object system (src/unnamed/part_002); this evaluator revision never
constructs one, but the `len` builtin can receive one.  A `returnValue`
wraps the Go interface value of the evaluated expression, which may be nil,
hence the `Option`.  A function's captured environment is a heap address
(see `Environment`). -/
inductive Object : Type where
  | integer (value : Int)
  | boolean (value : Bool)
  | string (value : String)
  | null
  | returnValue (value : Option Object)
  | error (message : String)
  | function (parameters : List String) (body : List Stmt) (env : Nat)
  | array (elements : List Object)
deriving Repr

/-- ObjectType constant INTEGER_OBJ. -/
def INTEGER_OBJ : String := "INTEGER"

/-- ObjectType constant BOOLEAN_OBJ. -/
def BOOLEAN_OBJ : String := "BOOLEAN"

/-- ObjectType constant STRING_OBJ. -/
def STRING_OBJ : String := "STRING"

/-- ObjectType constant NULL_OBJ. -/
def NULL_OBJ : String := "NULL"

/-- ObjectType constant RETURN_VALUE_OBJ. -/
def RETURN_VALUE_OBJ : String := "RETURN_VALUE"

/-- ObjectType constant ERROR_OBJ. -/
def ERROR_OBJ : String := "ERROR"

/-- ObjectType constant FUNCTION_OBJ. -/
def FUNCTION_OBJ : String := "FUNCTION"

/-- ObjectType constant ARRAY_OBJ (src/unnamed/part_002). -/
def ARRAY_OBJ : String := "ARRAY"

/-- The `Type()` method of each object kind. -/
def Object.typeTag : Object → String
  | .integer _ => INTEGER_OBJ
  | .boolean _ => BOOLEAN_OBJ
  | .string _ => STRING_OBJ
  | .null => NULL_OBJ
  | .returnValue _ => RETURN_VALUE_OBJ
  | .error _ => ERROR_OBJ
  | .function _ _ _ => FUNCTION_OBJ
  | .array _ => ARRAY_OBJ

/-- An environment record (src/unnamed/part_004): the local name store and an
optional reference to the enclosing environment.  Go environments are
mutable heap objects aliased by closures, so all environments live in an
explicit heap (`Heap`) and `outer` is a heap address.  The Go store is a
`map[string]Object`; an association list read and written by key models its
observable behaviour, and a stored interface value may be nil. -/
structure Environment : Type where
  store : List (String × Option Object)
  outer : Option Nat
deriving Repr

/-- The allocated environments; a heap address is an index into this list. -/
abbrev Heap : Type := List Environment

/-- NewEnvironment: an empty store and no outer environment. -/
def NewEnvironment : Environment := { store := [], outer := none }

/-- NewEnclosedEnvironment: an empty store whose outer reference is the given
(enclosing) environment. -/
def NewEnclosedEnvironment (outer : Nat) : Environment :=
  { store := [], outer := some outer }

/-- Read of the Go map (`obj, ok := e.store[name]` as comma-ok): `none` when
the key is absent. -/
def storeGet : List (String × Option Object) → String → Option (Option Object)
  | [], _ => none
  | (k, v) :: rest, name => if k == name then some v else storeGet rest name

/-- Write of the Go map (`e.store[name] = val`): replace the binding of the
key, or add one. -/
def storeSet : List (String × Option Object) → String → Option Object →
    List (String × Option Object)
  | [], name, val => [(name, val)]
  | (k, v) :: rest, name, val =>
    if k == name then (name, val) :: rest else (k, v) :: storeSet rest name val

/-- Environment.Get (src/unnamed/part_004): consult the local store, and only
when it lacks the name delegate to the outer environment.  The recursion over
the outer chain is bounded by a fuel argument; callers pass the heap size,
which bounds the chain length for every heap the evaluator builds, because
`outer` always refers to an environment allocated earlier. -/
def Environment.Get (h : Heap) : Nat → Nat → String → Option (Option Object)
  | 0, _, _ => none
  | fuel + 1, addr, name =>
    match h.get? addr with
    | none => none
    | some e =>
      match storeGet e.store name with
      | some obj => some obj
      | none =>
        match e.outer with
        | some o => Environment.Get h fuel o name
        | none => none

/-- Environment.Set (src/unnamed/part_004): store the value under the name in
the local store of the environment at `addr`; no other environment is
touched.  (Go's Set also returns the value; no caller uses it.) -/
def Environment.Set (h : Heap) (addr : Nat) (name : String)
    (val : Option Object) : Heap :=
  match h.get? addr with
  | none => h
  | some e => h.set addr { e with store := storeSet e.store name val }

/-- Outcome of one evaluator call: a normal Go return (`ok`: the returned
`object.Object`, nil as `none`, together with the heap of environments after
the call), a Go runtime panic, or exhaustion of the model's step fuel. -/
inductive Res : Type where
  | ok (value : Option Object) (heap : Heap)
  | panic (message : String)
  | fuelOut
deriving Repr

/-- Message of the Go panic on calling a method of a nil interface value. -/
def nilDerefMsg : String :=
  "runtime error: invalid memory address or nil pointer dereference"

/-- Message of the Go panic on integer division by zero. -/
def divByZeroMsg : String := "runtime error: integer divide by zero"

/-- Message of the Go panic on an out-of-range slice index. -/
def indexOutOfRangeMsg : String := "runtime error: index out of range"

/-- TRUE, the cached Boolean object for `true`.  Identity is tracked by
value: the evaluator produces Boolean objects only through
`nativeBoolToBooleanObject`, so every Boolean object is one of the two
singletons. -/
def TRUE : Object := .boolean true

/-- FALSE, the cached Boolean object for `false`. -/
def FALSE : Object := .boolean false

/-- NULL, the single cached Null object; the evaluator creates Null only by
referencing it. -/
def NULL : Object := .null

/-- nativeBoolToBooleanObject: reference TRUE or FALSE instead of allocating. -/
def nativeBoolToBooleanObject (input : Bool) : Object :=
  if input then TRUE else FALSE

/-- isError: Go first checks `obj != nil`, then compares `obj.Type()` with
ERROR_OBJ. -/
def isError : Option Object → Bool
  | some obj => obj.typeTag == ERROR_OBJ
  | none => false

/-- isTruthy: the Go switch compares the value against the NULL/TRUE/FALSE
singletons by identity; Boolean and Null objects are exactly those
singletons, so a value match is the same test.  Anything else — a nil result
included — hits the default and is truthy. -/
def isTruthy : Option Object → Bool
  | some .null => false
  | some (.boolean b) => b
  | _ => true

/-- unwrapReturnValue: the result of a function body is unwrapped when it is
a ReturnValue, so a `return` stops only the last called function. -/
def unwrapReturnValue : Option Object → Option Object
  | some (.returnValue value) => value
  | obj => obj

/-- Go's interface identity comparison `left == right`, used by
evalInfixExpression for the == and != operators: two interface values are
equal when they carry the same pointer (or are both nil).  Boolean and Null
objects are only ever the shared singletons TRUE/FALSE/NULL, so identity on
them coincides with value equality, and values of different kinds are never
the same pointer.  Integer, String, ReturnValue, Error and Function objects
are freshly allocated by each evaluation step that produces them; the model
treats two such references as never identical, which matches the code at
every comparison the theorems below touch (it would differ only when one
single allocation reaches both operand positions, as in `let s = "a"; s == s`). -/
def objIdentEq : Option Object → Option Object → Bool
  | none, none => true
  | some (.boolean a), some (.boolean b) => a == b
  | some .null, some .null => true
  | _, _ => false

/-- Reduction of an unbounded integer to Go's int64 two's-complement value. -/
def wrap64 (x : Int) : Int := (x + 2 ^ 63) % 2 ^ 64 - 2 ^ 63

/-- evalBangOperatorExpression: the identity switch over the singletons; any
other operand (a nil result included) is mapped to FALSE. -/
def evalBangOperatorExpression : Option Object → Object
  | some (.boolean true) => FALSE
  | some (.boolean false) => TRUE
  | some .null => TRUE
  | _ => FALSE

/-- evalMinusPrefixOperatorExpression: the operand must be an Integer, else
an `unknown operator` Error; Go calls `right.Type()` first, so a nil operand
panics.  Negation is Go int64 negation (wrapping at the minimum value). -/
def evalMinusPrefixOperatorExpression : Option Object → Except String Object
  | none => .error nilDerefMsg
  | some (.integer value) => .ok (.integer (wrap64 (-value)))
  | some right => .ok (.error ("unknown operator: -" ++ right.typeTag))

/-- evalPrefixExpression: dispatch on the operator; unsupported operators
yield an `unknown operator` Error (whose format string calls
`right.Type()`, panicking on nil). -/
def evalPrefixExpression (operator : String) (right : Option Object) :
    Except String (Option Object) :=
  if operator == "!" then .ok (some (evalBangOperatorExpression right))
  else if operator == "-" then
    match evalMinusPrefixOperatorExpression right with
    | .ok obj => .ok (some obj)
    | .error m => .error m
  else
    match right with
    | none => .error nilDerefMsg
    | some r => .ok (some (.error ("unknown operator: " ++ operator ++ r.typeTag)))

/-- evalIntegerInfixExpression: both operands are Integers (the caller
checked both tags).  Arithmetic is Go int64 arithmetic: + - * wrap on
overflow, and / is hardware division — truncation toward zero (`Int.tdiv`)
wrapped to int64 (which moves only the most-negative-value divided by -1),
with a Go runtime panic on a zero divisor; the code performs no guard of its
own. -/
def evalIntegerInfixExpression (operator : String) (left right : Object) :
    Except String (Option Object) :=
  match left, right with
  | .integer leftVal, .integer rightVal =>
    if operator == "+" then .ok (some (.integer (wrap64 (leftVal + rightVal))))
    else if operator == "-" then .ok (some (.integer (wrap64 (leftVal - rightVal))))
    else if operator == "*" then .ok (some (.integer (wrap64 (leftVal * rightVal))))
    else if operator == "/" then
      if rightVal == 0 then .error divByZeroMsg
      else .ok (some (.integer (wrap64 (Int.tdiv leftVal rightVal))))
    else if operator == "<" then
      .ok (some (nativeBoolToBooleanObject (decide (leftVal < rightVal))))
    else if operator == ">" then
      .ok (some (nativeBoolToBooleanObject (decide (leftVal > rightVal))))
    else if operator == "==" then
      .ok (some (nativeBoolToBooleanObject (leftVal == rightVal)))
    else if operator == "!=" then
      .ok (some (nativeBoolToBooleanObject (leftVal != rightVal)))
    else
      .ok (some (.error ("unknown operator: " ++ left.typeTag ++ " " ++
        operator ++ " " ++ right.typeTag)))
  | _, _ => .error "interface conversion: not *object.Integer"

/-- Cases of evalInfixExpression after the failed both-Integers guard: the ==
and != cases compare interface identity (no method call, so safe on nil);
the type-mismatch and unknown-operator cases call `right.Type()`, panicking
on a nil right operand.  `l` is the already-dereferenced left operand. -/
def evalInfixCases (operator : String) (left right : Option Object)
    (l : Object) : Except String (Option Object) :=
  if operator == "==" then
    .ok (some (nativeBoolToBooleanObject (objIdentEq left right)))
  else if operator == "!=" then
    .ok (some (nativeBoolToBooleanObject (!objIdentEq left right)))
  else
    match right with
    | none => .error nilDerefMsg
    | some r =>
      if l.typeTag != r.typeTag then
        .ok (some (.error ("type mismatch: " ++ l.typeTag ++ " " ++
          operator ++ " " ++ r.typeTag)))
      else
        .ok (some (.error ("unknown operator: " ++ l.typeTag ++ " " ++
          operator ++ " " ++ r.typeTag)))

/-- evalInfixExpression (src/unnamed/part_008): the Go switch evaluates its
case guards in order.  The first guard calls `left.Type()` — and, only when
that is INTEGER, `right.Type()` (Go's && short-circuits) — so a nil operand
in an inspected position panics; when both are Integers the integer
arithmetic runs; otherwise the remaining cases follow (`evalInfixCases`). -/
def evalInfixExpression (operator : String) (left right : Option Object) :
    Except String (Option Object) :=
  match left with
  | none => .error nilDerefMsg
  | some l =>
    if l.typeTag == INTEGER_OBJ then
      match right with
      | none => .error nilDerefMsg
      | some r =>
        if r.typeTag == INTEGER_OBJ then
          evalIntegerInfixExpression operator l r
        else
          evalInfixCases operator left right l
    else
      evalInfixCases operator left right l

/-- evalIdentifier: look the name up through the environment chain; when the
lookup reports absence, an `identifier not found` Error. -/
def evalIdentifier (h : Heap) (env : Nat) (name : String) : Option Object :=
  match Environment.Get h h.length env name with
  | some val => val
  | none => some (.error ("identifier not found: " ++ name))

/-- Binding loop of extendFunctionEnv: `for paramIdx, param := range
fn.Parameters { env.Set(param.Value, args[paramIdx]) }`.  Go indexes
`args[paramIdx]` for every parameter, so when fewer arguments than
parameters were supplied the read is out of range and the host panics. -/
def bindParameters (h : Heap) (addr : Nat) : List String → Nat →
    List (Option Object) → Except String Heap
  | [], _, _ => .ok h
  | param :: rest, paramIdx, args =>
    match args.get? paramIdx with
    | none => .error indexOutOfRangeMsg
    | some arg =>
      bindParameters (Environment.Set h addr param arg) addr rest
        (paramIdx + 1) args

/-- extendFunctionEnv (src/unnamed/part_008): allocate a fresh environment
enclosed by the function's captured environment (`NewEnclosedEnvironment`;
the model appends it to the heap, its address is the old heap size), then
bind the parameters positionally.  The caller's environment plays no part. -/
def extendFunctionEnv (h : Heap) (parameters : List String) (fnEnv : Nat)
    (args : List (Option Object)) : Except String (Nat × Heap) :=
  let addr := h.length
  match bindParameters (h ++ [NewEnclosedEnvironment fnEnv]) addr
      parameters 0 args with
  | .error msg => .error msg
  | .ok h2 => .ok (addr, h2)

/-- Result of evalExpressions: the list of evaluated arguments (Go returns a
slice) and the heap, or a propagated panic or fuel exhaustion. -/
inductive ResList : Type where
  | ok (values : List (Option Object)) (heap : Heap)
  | panic (message : String)
  | fuelOut
deriving Repr

/-- Statement loop of evalProgram (src/unnamed/part_008).  `recur` stands
for the recursive `Eval` call of the Go source (`Eval` at one fuel less, see
`Eval` below); `result` carries Go's `var result object.Object` across
iterations (nil before the first statement).  A ReturnValue result stops the
run and is unwrapped; an Error result stops the run and is returned as is;
otherwise the loop continues and the last result is returned. -/
def evalProgramLoop (recur : Node → Nat → Heap → Res) :
    List Stmt → Nat → Heap → Option Object → Res
  | [], _, h, result => .ok result h
  | statement :: rest, env, h, _ =>
    match recur (.stmt statement) env h with
    | .ok result h' =>
      match result with
      | some (.returnValue value) => .ok value h'
      | some (.error message) => .ok (some (.error message)) h'
      | _ => evalProgramLoop recur rest env h' result
    | r => r

/-- Statement loop of evalBlockStatement (src/unnamed/part_008).  A non-nil
result whose Type() is RETURN_VALUE_OBJ or ERROR_OBJ is returned as is —
explicitly not unwrapped, so it bubbles up through enclosing blocks to
evalProgram; otherwise the loop continues and the last result is returned. -/
def evalBlockLoop (recur : Node → Nat → Heap → Res) :
    List Stmt → Nat → Heap → Option Object → Res
  | [], _, h, result => .ok result h
  | statement :: rest, env, h, _ =>
    match recur (.stmt statement) env h with
    | .ok result h' =>
      match result with
      | some obj =>
        if obj.typeTag == RETURN_VALUE_OBJ || obj.typeTag == ERROR_OBJ then
          .ok (some obj) h'
        else evalBlockLoop recur rest env h' (some obj)
      | none => evalBlockLoop recur rest env h' none
    | r => r

/-- evalIfExpression (src/unnamed/part_008): evaluate the condition
(propagating an Error), then the chosen branch; with no alternative and a
non-truthy condition, NULL. -/
def evalIfExpression (recur : Node → Nat → Heap → Res) (condition : Expr)
    (consequence : List Stmt) (alternative : Option (List Stmt)) (env : Nat)
    (h : Heap) : Res :=
  match recur (.expr condition) env h with
  | .ok cond h' =>
    if isError cond then .ok cond h'
    else if isTruthy cond then recur (.block consequence) env h'
    else
      match alternative with
      | some alt => recur (.block alt) env h'
      | none => .ok (some NULL) h'
  | r => r

/-- Argument loop of evalExpressions (src/unnamed/part_008): evaluate left
to right, stopping at the first Error, which is returned as a single-element
list; Go appends each evaluated value (nil included) to the result slice. -/
def evalExpressionsLoop (recur : Node → Nat → Heap → Res) :
    List Expr → Nat → Heap → List (Option Object) → ResList
  | [], _, h, acc => .ok acc h
  | e :: rest, env, h, acc =>
    match recur (.expr e) env h with
    | .ok evaluated h' =>
      if isError evaluated then .ok [evaluated] h'
      else evalExpressionsLoop recur rest env h' (acc ++ [evaluated])
    | .panic m => .panic m
    | .fuelOut => .fuelOut

/-- applyFunction (src/unnamed/part_008): type-assert the callee to
`*object.Function` — a non-function object yields a `not a function` Error,
and a nil callee panics inside that Error's format call `fn.Type()` — then
extend the captured environment with the arguments, evaluate the body and
unwrap a ReturnValue. -/
def applyFunction (recur : Node → Nat → Heap → Res) (fn : Option Object)
    (args : List (Option Object)) (h : Heap) : Res :=
  match fn with
  | some (.function parameters body fnEnv) =>
    match extendFunctionEnv h parameters fnEnv args with
    | .error msg => .panic msg
    | .ok (addr, h1) =>
      match recur (.block body) addr h1 with
      | .ok evaluated h2 => .ok (unwrapReturnValue evaluated) h2
      | r => r
  | some other => .ok (some (.error ("not a function: " ++ other.typeTag))) h
  | none => .panic nilDerefMsg

/-- The switch body of Eval (src/unnamed/part_008), parameterized by the
recursive evaluator `recur` (every recursive `Eval(...)` call of the Go
source).  The LetStatement arm sets the binding and falls through the switch
to the trailing `return nil`, modelled as `.ok none`; a node kind outside
the switch would reach the same `return nil`. -/
def evalStep (recur : Node → Nat → Heap → Res) (node : Node) (env : Nat)
    (h : Heap) : Res :=
  match node with
  | .program statements => evalProgramLoop recur statements env h none
  | .block statements => evalBlockLoop recur statements env h none
  | .stmt (.exprStmt expression) => recur (.expr expression) env h
  | .stmt (.returnStmt returnValue) =>
    match recur (.expr returnValue) env h with
    | .ok val h' =>
      if isError val then .ok val h'
      else .ok (some (.returnValue val)) h'
    | r => r
  | .stmt (.letStmt name value) =>
    match recur (.expr value) env h with
    | .ok val h' =>
      if isError val then .ok val h'
      else .ok none (Environment.Set h' env name val)
    | r => r
  | .expr (.integerLiteral value) => .ok (some (.integer value)) h
  | .expr (.stringLiteral value) => .ok (some (.string value)) h
  | .expr (.boolean value) => .ok (some (nativeBoolToBooleanObject value)) h
  | .expr (.prefixExpr operator right) =>
    match recur (.expr right) env h with
    | .ok rv h' =>
      if isError rv then .ok rv h'
      else
        match evalPrefixExpression operator rv with
        | .ok v => .ok v h'
        | .error m => .panic m
    | r => r
  | .expr (.infixExpr operator left right) =>
    match recur (.expr left) env h with
    | .ok lv h1 =>
      if isError lv then .ok lv h1
      else
        match recur (.expr right) env h1 with
        | .ok rv h2 =>
          if isError rv then .ok rv h2
          else
            match evalInfixExpression operator lv rv with
            | .ok v => .ok v h2
            | .error m => .panic m
        | r => r
    | r => r
  | .expr (.ifExpr condition consequence alternative) =>
    evalIfExpression recur condition consequence alternative env h
  | .expr (.identifier value) => .ok (evalIdentifier h env value) h
  | .expr (.functionLiteral parameters body) =>
    .ok (some (.function parameters body env)) h
  | .expr (.callExpr function arguments) =>
    match recur (.expr function) env h with
    | .ok fn h1 =>
      if isError fn then .ok fn h1
      else
        match evalExpressionsLoop recur arguments env h1 [] with
        | .ok args h2 =>
          if args.length == 1 && isError (args.getD 0 none) then
            .ok (args.getD 0 none) h2
          else applyFunction recur fn args h2
        | .panic m => .panic m
        | .fuelOut => .fuelOut
    | r => r

/-- Eval (src/unnamed/part_008): the recursion itself.  `fuel` bounds the
recursion depth (the Go recursion is unbounded and can diverge); every
recursive `Eval` call of the source runs at one fuel less. -/
def Eval : Nat → Node → Nat → Heap → Res
  | 0 => fun _ _ _ => .fuelOut
  | fuel + 1 => evalStep (Eval fuel)

/-- evalProgram (src/unnamed/part_008): run the statement loop with Go's
`var result object.Object` starting nil. -/
def evalProgram (fuel : Nat) (statements : List Stmt) (env : Nat) (h : Heap) :
    Res :=
  evalProgramLoop (Eval fuel) statements env h none

/-- evalBlockStatement (src/unnamed/part_008): run the block statement loop
with the result starting nil. -/
def evalBlockStatement (fuel : Nat) (statements : List Stmt) (env : Nat)
    (h : Heap) : Res :=
  evalBlockLoop (Eval fuel) statements env h none

/-- evalExpressions (src/unnamed/part_008): run the argument loop with an
empty result slice. -/
def evalExpressions (fuel : Nat) (exps : List Expr) (env : Nat) (h : Heap) :
    ResList :=
  evalExpressionsLoop (Eval fuel) exps env h []

/-- The heap holding the single empty environment a session starts with
(`object.NewEnvironment()` in the REPL driver), at address 0. -/
def initialHeap : Heap := [NewEnvironment]

namespace token

/-- Token type ILLEGAL: a character the lexer does not know. -/
def ILLEGAL : String := "ILLEGAL"

/-- Token type EOF: end of input. -/
def EOF : String := "EOF"

/-- Token type IDENT: a user-defined identifier. -/
def IDENT : String := "IDENT"

/-- Token type INT: an integer literal. -/
def INT : String := "INT"

/-- Token type STRING: a string literal. -/
def STRING : String := "STRING"

/-- Token type of the assignment operator. -/
def ASSIGN : String := "="

/-- Token type of the addition operator. -/
def PLUS : String := "+"

/-- Token type of the subtraction operator. -/
def MINUS : String := "-"

/-- Token type of the bang operator. -/
def BANG : String := "!"

/-- Token type of the multiplication operator. -/
def ASTERISK : String := "*"

/-- Token type of the division operator. -/
def SLASH : String := "/"

/-- Token type of the less-than operator. -/
def LT : String := "<"

/-- Token type of the greater-than operator. -/
def GT : String := ">"

/-- Token type of the equality operator. -/
def EQ : String := "=="

/-- Token type of the inequality operator. -/
def NOT_EQ : String := "!="

/-- Token type of a comma. -/
def COMMA : String := ","

/-- Token type of a semicolon. -/
def SEMICOLON : String := ";"

/-- Token type of a colon. -/
def COLON : String := ":"

/-- Token type of a left parenthesis. -/
def LPAREN : String := "("

/-- Token type of a right parenthesis. -/
def RPAREN : String := ")"

/-- Token type of a left brace. -/
def LBRACE : String := "\x7b"

/-- Token type of a right brace. -/
def RBRACE : String := "\x7d"

/-- Token type of a left bracket. -/
def LBRACKET : String := "["

/-- Token type of a right bracket. -/
def RBRACKET : String := "]"

/-- Token type of the `fn` keyword. -/
def FUNCTION : String := "FUNCTION"

/-- Token type of the `let` keyword. -/
def LET : String := "LET"

/-- Token type of the `true` keyword. -/
def TRUE : String := "TRUE"

/-- Token type of the `false` keyword. -/
def FALSE : String := "FALSE"

/-- Token type of the `if` keyword. -/
def IF : String := "IF"

/-- Token type of the `else` keyword. -/
def ELSE : String := "ELSE"

/-- Token type of the `return` keyword. -/
def RETURN : String := "RETURN"

end token

/-- Token (src/unnamed/part_000): a type tag and the literal text.  The Go
field `Type` is a Lean keyword, so it is named `ttype` here. -/
structure Token : Type where
  ttype : String
  literal : String
deriving Repr

/-- LookupIdent (src/unnamed/part_000): classify an identifier through the
keyword table, written out as the table's entries. -/
def LookupIdent (ident : String) : String :=
  if ident == "fn" then token.FUNCTION
  else if ident == "let" then token.LET
  else if ident == "true" then token.TRUE
  else if ident == "false" then token.FALSE
  else if ident == "if" then token.IF
  else if ident == "else" then token.ELSE
  else if ident == "return" then token.RETURN
  else token.IDENT

/-- The 0 byte: Go's sentinel for "end of input / nothing read yet". -/
def charNul : Char := Char.ofNat 0

/-- The double-quote character (kept out of character literals). -/
def quoteChar : Char := Char.ofNat 34

/-- The left-brace character (kept out of character literals). -/
def lbraceChar : Char := Char.ofNat 123

/-- The right-brace character (kept out of character literals). -/
def rbraceChar : Char := Char.ofNat 125

/-- Lexer state (src/unnamed/part_005): the whole input, the position of the
character under examination, the next read position, and that current
character.  Go scans single bytes of a string; the sources are ASCII (the
lexer's documented scope), modelled as one `Char` per byte. -/
structure Lexer : Type where
  input : List Char
  position : Nat
  readPosition : Nat
  ch : Char
deriving Repr

/-- readChar: load the byte at readPosition (the 0 sentinel past the end)
and advance both positions. -/
def Lexer.readChar (l : Lexer) : Lexer :=
  { l with
    ch := if l.readPosition ≥ l.input.length then charNul
          else l.input.getD l.readPosition charNul,
    position := l.readPosition,
    readPosition := l.readPosition + 1 }

/-- peekChar: the byte at readPosition without advancing. -/
def Lexer.peekChar (l : Lexer) : Char :=
  if l.readPosition ≥ l.input.length then charNul
  else l.input.getD l.readPosition charNul

/-- New (lexer): both positions at the start, then one readChar. -/
def Lexer.New (input : List Char) : Lexer :=
  Lexer.readChar { input := input, position := 0, readPosition := 0, ch := charNul }

/-- isLetter: ASCII letters and the underscore. -/
def isLetter (ch : Char) : Bool :=
  ('a' ≤ ch && ch ≤ 'z') || ('A' ≤ ch && ch ≤ 'Z') || ch == '_'

/-- isDigit: a Latin digit. -/
def isDigit (ch : Char) : Bool := '0' ≤ ch && ch ≤ '9'

/-- Loop of skipWhitespace.  Every read loop of the lexer is bounded by the
fuel `input.length + 1 - position` its wrapper passes: each readChar moves
`position` forward, so the bound covers every state the lexer reaches. -/
def skipWhitespaceLoop : Nat → Lexer → Lexer
  | 0, l => l
  | fuel + 1, l =>
    if l.ch == ' ' || l.ch == '\t' || l.ch == '\n' || l.ch == '\r' then
      skipWhitespaceLoop fuel l.readChar
    else l

/-- skipWhitespace: consume the whitespace run under the cursor. -/
def Lexer.skipWhitespace (l : Lexer) : Lexer :=
  skipWhitespaceLoop (l.input.length + 1 - l.position) l

/-- Loop of readIdentifier: advance while a letter is under the cursor. -/
def readIdentifierLoop : Nat → Lexer → Lexer
  | 0, l => l
  | fuel + 1, l =>
    if isLetter l.ch then readIdentifierLoop fuel l.readChar else l

/-- readIdentifier: consume a letter run; the literal is the consumed slice
`l.input[position:l.position]`. -/
def Lexer.readIdentifier (l : Lexer) : String × Lexer :=
  let start := l.position
  let l' := readIdentifierLoop (l.input.length + 1 - l.position) l
  (String.mk ((l'.input.drop start).take (l'.position - start)), l')

/-- Loop of readNumber: advance while a digit is under the cursor. -/
def readNumberLoop : Nat → Lexer → Lexer
  | 0, l => l
  | fuel + 1, l =>
    if isDigit l.ch then readNumberLoop fuel l.readChar else l

/-- readNumber: consume a digit run; the literal is the consumed slice. -/
def Lexer.readNumber (l : Lexer) : String × Lexer :=
  let start := l.position
  let l' := readNumberLoop (l.input.length + 1 - l.position) l
  (String.mk ((l'.input.drop start).take (l'.position - start)), l')

/-- Loop of readString: readChar until a closing double quote or the end of
the input (the 0 sentinel). -/
def readStringLoop : Nat → Lexer → Lexer
  | 0, l => l
  | fuel + 1, l =>
    let l' := l.readChar
    if l'.ch == quoteChar || l'.ch == charNul then l'
    else readStringLoop fuel l'

/-- readString (src/unnamed/part_005): starting on the opening quote, loop to
the closing quote or end of input; the literal is
`l.input[position+1:l.position]` — the bytes strictly between the quotes, or
everything after the opening quote when the string is unterminated. -/
def Lexer.readString (l : Lexer) : String × Lexer :=
  let start := l.position + 1
  let l' := readStringLoop (l.input.length + 1 - l.position) l
  (String.mk ((l'.input.drop start).take (l'.position - start)), l')

/-- newToken: a single-character token. -/
def newToken (tokenType : String) (ch : Char) : Token :=
  { ttype := tokenType, literal := String.mk [ch] }

/-- NextToken (src/unnamed/part_005): skip whitespace, then the switch over
the current character in the source's case order.  The identifier and number
cases return early; every other case performs the trailing readChar, which
for a string literal consumes the closing quote.  Written as an if-chain
because the Go switch cases are single characters (the braces and the double
quote are named constants to keep them out of literals). -/
def Lexer.NextToken (l0 : Lexer) : Token × Lexer :=
  let l := l0.skipWhitespace
  if l.ch == '=' then
    if l.peekChar == '=' then
      let c := l.ch
      let l' := l.readChar
      ({ ttype := token.EQ, literal := String.mk [c, l'.ch] }, l'.readChar)
    else (newToken token.ASSIGN l.ch, l.readChar)
  else if l.ch == ';' then (newToken token.SEMICOLON l.ch, l.readChar)
  else if l.ch == ':' then (newToken token.COLON l.ch, l.readChar)
  else if l.ch == '(' then (newToken token.LPAREN l.ch, l.readChar)
  else if l.ch == ')' then (newToken token.RPAREN l.ch, l.readChar)
  else if l.ch == ',' then (newToken token.COMMA l.ch, l.readChar)
  else if l.ch == '+' then (newToken token.PLUS l.ch, l.readChar)
  else if l.ch == lbraceChar then (newToken token.LBRACE l.ch, l.readChar)
  else if l.ch == rbraceChar then (newToken token.RBRACE l.ch, l.readChar)
  else if l.ch == '-' then (newToken token.MINUS l.ch, l.readChar)
  else if l.ch == '!' then
    if l.peekChar == '=' then
      let c := l.ch
      let l' := l.readChar
      ({ ttype := token.NOT_EQ, literal := String.mk [c, l'.ch] }, l'.readChar)
    else (newToken token.BANG l.ch, l.readChar)
  else if l.ch == '/' then (newToken token.SLASH l.ch, l.readChar)
  else if l.ch == '*' then (newToken token.ASTERISK l.ch, l.readChar)
  else if l.ch == '<' then (newToken token.LT l.ch, l.readChar)
  else if l.ch == '>' then (newToken token.GT l.ch, l.readChar)
  else if l.ch == quoteChar then
    let r := l.readString
    ({ ttype := token.STRING, literal := r.fst }, r.snd.readChar)
  else if l.ch == '[' then (newToken token.LBRACKET l.ch, l.readChar)
  else if l.ch == ']' then (newToken token.RBRACKET l.ch, l.readChar)
  else if l.ch == charNul then ({ ttype := token.EOF, literal := "" }, l.readChar)
  else if isLetter l.ch then
    let r := l.readIdentifier
    ({ ttype := LookupIdent r.fst, literal := r.fst }, r.snd)
  else if isDigit l.ch then
    let r := l.readNumber
    ({ ttype := token.INT, literal := r.fst }, r.snd)
  else (newToken token.ILLEGAL l.ch, l.readChar)

/-- Precedence ladder (parser/parser.go); Go's iota gives LOWEST = 1 up to
CALL = 7.  The PREFIX level is named PREFIX_LEVEL here. -/
def LOWEST : Nat := 1

/-- Precedence of == and !=. -/
def EQUALS : Nat := 2

/-- Precedence of < and >. -/
def LESSGREATER : Nat := 3

/-- Precedence of + and binary -. -/
def SUM : Nat := 4

/-- Precedence of * and /. -/
def PRODUCT : Nat := 5

/-- Precedence of the unary operators. -/
def PREFIX_LEVEL : Nat := 6

/-- Precedence of `(` as the call operator. -/
def CALL : Nat := 7

/-- The precedence table for infix operator tokens, entry by entry; tokens
not listed have no entry (their precedence defaults to LOWEST). -/
def precedences (t : String) : Option Nat :=
  if t == token.EQ then some EQUALS
  else if t == token.NOT_EQ then some EQUALS
  else if t == token.LT then some LESSGREATER
  else if t == token.GT then some LESSGREATER
  else if t == token.PLUS then some SUM
  else if t == token.MINUS then some SUM
  else if t == token.SLASH then some PRODUCT
  else if t == token.ASTERISK then some PRODUCT
  else if t == token.LPAREN then some CALL
  else none

/-- Parser state (parser/parser.go): the lexer, the accumulated error
messages, and the one-token lookahead.  The prefix and infix dispatch tables
are the fixed registrations made by `New`; the model dispatches by matching
the token type directly against those registrations. -/
structure Parser : Type where
  l : Lexer
  errors : List String
  curToken : Token
  peekToken : Token
deriving Repr

/-- Parser.nextToken: shift the lookahead and pull one token from the lexer. -/
def Parser.nextToken (p : Parser) : Parser :=
  let r := p.l.NextToken
  { p with l := r.snd, curToken := p.peekToken, peekToken := r.fst }

/-- New (parser): start with empty errors and Go's zero-valued tokens, then
read two tokens so curToken and peekToken are both set. -/
def Parser.New (l : Lexer) : Parser :=
  Parser.nextToken (Parser.nextToken
    { l := l, errors := [],
      curToken := { ttype := "", literal := "" },
      peekToken := { ttype := "", literal := "" } })

/-- peekTokenIs: the peek token has the given type. -/
def Parser.peekTokenIs (p : Parser) (t : String) : Bool := p.peekToken.ttype == t

/-- curTokenIs: the current token has the given type. -/
def Parser.curTokenIs (p : Parser) (t : String) : Bool := p.curToken.ttype == t

/-- peekPrecedence: table entry of the peek token, defaulting to LOWEST. -/
def Parser.peekPrecedence (p : Parser) : Nat :=
  (precedences p.peekToken.ttype).getD LOWEST

/-- curPrecedence: table entry of the current token, defaulting to LOWEST. -/
def Parser.curPrecedence (p : Parser) : Nat :=
  (precedences p.curToken.ttype).getD LOWEST

/-- peekError: record the `expected next token` message. -/
def Parser.peekError (p : Parser) (t : String) : Parser :=
  { p with errors := p.errors ++
      ["expected next token to be " ++ t ++ ", got " ++
        p.peekToken.ttype ++ " instead"] }

/-- expectPeek: advance when the peek token matches, else record the error. -/
def Parser.expectPeek (p : Parser) (t : String) : Bool × Parser :=
  if p.peekTokenIs t then (true, p.nextToken) else (false, p.peekError t)

/-- noPrefixParseFnError: record the missing-prefix-parser message. -/
def Parser.noPrefixParseFnError (p : Parser) (t : String) : Parser :=
  { p with errors := p.errors ++
      ["no prefix parse function for " ++ t ++ " found"] }

/-- parseIdentifier: an Identifier from the current token; never advances. -/
def parseIdentifier (p : Parser) : Expr := .identifier p.curToken.literal

/-- parseBoolean: the value is whether the current token is `true`. -/
def parseBoolean (p : Parser) : Expr := .boolean (p.curTokenIs token.TRUE)

/-- Digit-run parse at a base: the accumulated value, or `none` at a digit
outside the base. -/
def parseDigitsBase (base : Nat) : List Char → Nat → Option Nat
  | [], acc => some acc
  | c :: rest, acc =>
    if isDigit c && c.toNat - 48 < base then
      parseDigitsBase base rest (acc * base + (c.toNat - 48))
    else none

/-- strconv.ParseInt(lit, 0, 64) restricted to the digit strings readNumber
produces: base 0 reads a literal with a leading "0" as octal (a digit 8 or 9
then fails), otherwise decimal; a value beyond int64 range is an error
(`none`). -/
def goParseInt (s : String) : Option Int :=
  match s.data with
  | [] => none
  | ['0'] => some 0
  | '0' :: rest =>
    match parseDigitsBase 8 rest 0 with
    | some n => if n ≤ 2 ^ 63 - 1 then some (n : Int) else none
    | none => none
  | l =>
    match parseDigitsBase 10 l 0 with
    | some n => if n ≤ 2 ^ 63 - 1 then some (n : Int) else none
    | none => none

/-- parseIntegerLiteral: ParseInt on the literal; a failure records the
`could not parse ... as integer` error (Go's %q adds the quotes) and yields
Go's nil. -/
def parseIntegerLiteral (p : Parser) : Option Expr × Parser :=
  match goParseInt p.curToken.literal with
  | some value => (some (.integerLiteral value), p)
  | none =>
    (none, { p with errors := p.errors ++
      ["could not parse \"" ++ p.curToken.literal ++ "\" as integer"] })

/-- Trailing-semicolon loop of parseLetStatement (`for p.peekTokenIs(token.
SEMICOLON)`); the parser fuel also bounds it. -/
def letSemicolonLoop : Nat → Parser → Parser
  | 0, p => p
  | fuel + 1, p =>
    if p.peekTokenIs token.SEMICOLON then letSemicolonLoop fuel p.nextToken
    else p

/-- Comma loop of parseFunctionParameters, accumulating identifier literals,
then the closing-parenthesis check (`none` models Go's nil slice on its
failure). -/
def parseFunctionParametersLoop : Nat → Parser → List String →
    Option (List String) × Parser
  | 0, p, _ => (none, p)
  | fuel + 1, p, acc =>
    if p.peekTokenIs token.COMMA then
      let p1 := p.nextToken.nextToken
      parseFunctionParametersLoop fuel p1 (acc ++ [p1.curToken.literal])
    else
      match p.expectPeek token.RPAREN with
      | (true, p1) => (some acc, p1)
      | (false, p1) => (none, p1)

/-- parseFunctionParameters: empty list on an immediate `)`, else the first
identifier and the comma loop. -/
def parseFunctionParameters (fuel : Nat) (p : Parser) :
    Option (List String) × Parser :=
  if p.peekTokenIs token.RPAREN then (some [], p.nextToken)
  else
    let p1 := p.nextToken
    parseFunctionParametersLoop fuel p1 [p1.curToken.literal]

mutual

/-- parseExpression (parser/parser.go): look up the prefix parser for the
current token (recording an error and yielding Go's nil when there is none),
then the Pratt loop.  `fuel` bounds the parser's recursion; the model
decrements it on every call, and the concrete parses below run with ample
fuel.  Error paths that Go represents by nil child pointers inside otherwise
returned nodes are modelled by propagating `none`; no parse proved below
reaches one. -/
def parseExpression : Nat → Nat → Parser → Option Expr × Parser
  | 0, _, p => (none, p)
  | fuel + 1, precedence, p =>
    match parsePrefixDispatch fuel p with
    | (none, p1) => (none, p1)
    | (some leftExp, p1) => parseExpressionLoop fuel precedence leftExp p1

/-- The prefix parse functions exactly as registered by New: IDENT, INT,
BANG and MINUS, TRUE and FALSE, LPAREN, IF, FUNCTION; any other token type
records the `no prefix parse function` error. -/
def parsePrefixDispatch : Nat → Parser → Option Expr × Parser
  | 0, p => (none, p)
  | fuel + 1, p =>
    let t := p.curToken.ttype
    if t == token.IDENT then (some (parseIdentifier p), p)
    else if t == token.INT then parseIntegerLiteral p
    else if t == token.BANG || t == token.MINUS then
      parsePrefixExpression fuel p
    else if t == token.TRUE || t == token.FALSE then (some (parseBoolean p), p)
    else if t == token.LPAREN then parseGroupedExpression fuel p
    else if t == token.IF then parseIfExpression fuel p
    else if t == token.FUNCTION then parseFunctionLiteral fuel p
    else (none, p.noPrefixParseFnError t)

/-- The Pratt loop of parseExpression: continue while the peek token is not
a semicolon and the given precedence is strictly less than the peek token's
precedence; a peek token with no registered infix parser ends the loop.  An
iteration advances onto the operator token and lets its infix parser
(parseInfixExpression for the eight operators, parseCallExpression for `(`)
consume the left expression. -/
def parseExpressionLoop : Nat → Nat → Expr → Parser → Option Expr × Parser
  | 0, _, leftExp, p => (some leftExp, p)
  | fuel + 1, precedence, leftExp, p =>
    if !(p.peekTokenIs token.SEMICOLON) && precedence < p.peekPrecedence then
      let t := p.peekToken.ttype
      if t == token.PLUS || t == token.MINUS || t == token.SLASH ||
          t == token.ASTERISK || t == token.EQ || t == token.NOT_EQ ||
          t == token.LT || t == token.GT then
        match parseInfixExpression fuel leftExp p.nextToken with
        | (some e, p2) => parseExpressionLoop fuel precedence e p2
        | (none, p2) => (none, p2)
      else if t == token.LPAREN then
        match parseCallExpression fuel leftExp p.nextToken with
        | (some e, p2) => parseExpressionLoop fuel precedence e p2
        | (none, p2) => (none, p2)
      else (some leftExp, p)
    else (some leftExp, p)

/-- parsePrefixExpression: record the operator from the current literal,
advance, recurse at the PREFIX level. -/
def parsePrefixExpression : Nat → Parser → Option Expr × Parser
  | 0, p => (none, p)
  | fuel + 1, p =>
    let operator := p.curToken.literal
    match parseExpression fuel PREFIX_LEVEL p.nextToken with
    | (some right, p2) => (some (.prefixExpr operator right), p2)
    | (none, p2) => (none, p2)

/-- parseInfixExpression: record the operator and its precedence, advance,
recurse at that precedence — left associativity comes from the loop's
strict-less-than test, not from here. -/
def parseInfixExpression : Nat → Expr → Parser → Option Expr × Parser
  | 0, _, p => (none, p)
  | fuel + 1, left, p =>
    let operator := p.curToken.literal
    let precedence := p.curPrecedence
    match parseExpression fuel precedence p.nextToken with
    | (some right, p2) => (some (.infixExpr operator left right), p2)
    | (none, p2) => (none, p2)

/-- parseGroupedExpression: on `(`, advance, parse at LOWEST, expect `)`. -/
def parseGroupedExpression : Nat → Parser → Option Expr × Parser
  | 0, p => (none, p)
  | fuel + 1, p =>
    match parseExpression fuel LOWEST p.nextToken with
    | (exp, p1) =>
      match p1.expectPeek token.RPAREN with
      | (true, p2) => (exp, p2)
      | (false, p2) => (none, p2)

/-- parseIfExpression: expect `(`, parse the condition at LOWEST, expect `)`
then the consequence block; an `else` is optional and takes another block. -/
def parseIfExpression : Nat → Parser → Option Expr × Parser
  | 0, p => (none, p)
  | fuel + 1, p =>
    match p.expectPeek token.LPAREN with
    | (false, p1) => (none, p1)
    | (true, p1) =>
      match parseExpression fuel LOWEST p1.nextToken with
      | (none, p2) => (none, p2)
      | (some condition, p2) =>
        match p2.expectPeek token.RPAREN with
        | (false, p3) => (none, p3)
        | (true, p3) =>
          match p3.expectPeek token.LBRACE with
          | (false, p4) => (none, p4)
          | (true, p4) =>
            match parseBlockStatement fuel p4 with
            | (consequence, p5) =>
              if p5.peekTokenIs token.ELSE then
                let p6 := p5.nextToken
                match p6.expectPeek token.LBRACE with
                | (false, p7) => (none, p7)
                | (true, p7) =>
                  match parseBlockStatement fuel p7 with
                  | (alternative, p8) =>
                    (some (.ifExpr condition consequence (some alternative)), p8)
              else (some (.ifExpr condition consequence none), p5)

/-- parseBlockStatement: step past `{`, then statements until `}` or EOF. -/
def parseBlockStatement : Nat → Parser → List Stmt × Parser
  | 0, p => ([], p)
  | fuel + 1, p => parseBlockLoop fuel p.nextToken []

/-- Statement loop of parseBlockStatement: parse one statement per
iteration, appending non-nil ones, and advance. -/
def parseBlockLoop : Nat → Parser → List Stmt → List Stmt × Parser
  | 0, p, acc => (acc, p)
  | fuel + 1, p, acc =>
    if !(p.curTokenIs token.RBRACE) && !(p.curTokenIs token.EOF) then
      match parseStatement fuel p with
      | (some stmt, p1) => parseBlockLoop fuel p1.nextToken (acc ++ [stmt])
      | (none, p1) => parseBlockLoop fuel p1.nextToken acc
    else (acc, p)

/-- parseFunctionLiteral: expect `(`, the parameter list, then `\x7b` and
the body block. -/
def parseFunctionLiteral : Nat → Parser → Option Expr × Parser
  | 0, p => (none, p)
  | fuel + 1, p =>
    match p.expectPeek token.LPAREN with
    | (false, p1) => (none, p1)
    | (true, p1) =>
      match parseFunctionParameters fuel p1 with
      | (none, p2) => (none, p2)
      | (some parameters, p2) =>
        match p2.expectPeek token.LBRACE with
        | (false, p3) => (none, p3)
        | (true, p3) =>
          match parseBlockStatement fuel p3 with
          | (body, p4) => (some (.functionLiteral parameters body), p4)

/-- parseCallExpression (registered as the infix parser of `(`): the callee
is the already-parsed left expression; parse the argument list. -/
def parseCallExpression : Nat → Expr → Parser → Option Expr × Parser
  | 0, _, p => (none, p)
  | fuel + 1, function, p =>
    match parseCallArguments fuel p with
    | (some args, p1) => (some (.callExpr function args), p1)
    | (none, p1) => (none, p1)

/-- parseCallArguments: empty on an immediate `)`, else the first argument
at LOWEST and the comma loop. -/
def parseCallArguments : Nat → Parser → Option (List Expr) × Parser
  | 0, p => (none, p)
  | fuel + 1, p =>
    if p.peekTokenIs token.RPAREN then (some [], p.nextToken)
    else
      match parseExpression fuel LOWEST p.nextToken with
      | (none, p1) => (none, p1)
      | (some a, p1) => parseCallArgumentsLoop fuel p1 [a]

/-- Comma loop of parseCallArguments, then the closing-parenthesis check. -/
def parseCallArgumentsLoop : Nat → Parser → List Expr →
    Option (List Expr) × Parser
  | 0, p, _ => (none, p)
  | fuel + 1, p, acc =>
    if p.peekTokenIs token.COMMA then
      match parseExpression fuel LOWEST p.nextToken.nextToken with
      | (none, p1) => (none, p1)
      | (some a, p1) => parseCallArgumentsLoop fuel p1 (acc ++ [a])
    else
      match p.expectPeek token.RPAREN with
      | (true, p1) => (some acc, p1)
      | (false, p1) => (none, p1)

/-- parseStatement: dispatch on the current token — `let`, `return`, or an
expression statement. -/
def parseStatement : Nat → Parser → Option Stmt × Parser
  | 0, p => (none, p)
  | fuel + 1, p =>
    if p.curTokenIs token.LET then parseLetStatement fuel p
    else if p.curTokenIs token.RETURN then parseReturnStatement fuel p
    else parseExpressionStatement fuel p

/-- parseLetStatement: expect the name, then `=`, then the value at LOWEST;
trailing semicolons are consumed by a loop. -/
def parseLetStatement : Nat → Parser → Option Stmt × Parser
  | 0, p => (none, p)
  | fuel + 1, p =>
    match p.expectPeek token.IDENT with
    | (false, p1) => (none, p1)
    | (true, p1) =>
      let name := p1.curToken.literal
      match p1.expectPeek token.ASSIGN with
      | (false, p2) => (none, p2)
      | (true, p2) =>
        match parseExpression fuel LOWEST p2.nextToken with
        | (none, p3) => (none, p3)
        | (some value, p3) =>
          (some (.letStmt name value), letSemicolonLoop fuel p3)

/-- parseReturnStatement: advance past `return`, the value at LOWEST, an
optional semicolon. -/
def parseReturnStatement : Nat → Parser → Option Stmt × Parser
  | 0, p => (none, p)
  | fuel + 1, p =>
    match parseExpression fuel LOWEST p.nextToken with
    | (none, p1) => (none, p1)
    | (some value, p1) =>
      let p2 := if p1.peekTokenIs token.SEMICOLON then p1.nextToken else p1
      (some (.returnStmt value), p2)

/-- parseExpressionStatement: the expression at LOWEST, an optional
semicolon.  (Go returns the statement node even when its inner expression is
nil; the model folds that error path into `none`.) -/
def parseExpressionStatement : Nat → Parser → Option Stmt × Parser
  | 0, p => (none, p)
  | fuel + 1, p =>
    match parseExpression fuel LOWEST p with
    | (none, p1) =>
      let p2 := if p1.peekTokenIs token.SEMICOLON then p1.nextToken else p1
      (none, p2)
    | (some e, p1) =>
      let p2 := if p1.peekTokenIs token.SEMICOLON then p1.nextToken else p1
      (some (.exprStmt e), p2)

end

/-- Statement loop of ParseProgram: until EOF, parse a statement, append it
when non-nil, advance. -/
def parseProgramLoop : Nat → Parser → List Stmt → List Stmt × Parser
  | 0, p, acc => (acc, p)
  | fuel + 1, p, acc =>
    if !(p.curTokenIs token.EOF) then
      match parseStatement fuel p with
      | (some stmt, p1) => parseProgramLoop fuel p1.nextToken (acc ++ [stmt])
      | (none, p1) => parseProgramLoop fuel p1.nextToken acc
    else (acc, p)

/-- ParseProgram (parser/parser.go): the statement loop from the freshly
constructed parser; the program node is its statement list. -/
def ParseProgram (fuel : Nat) (p : Parser) : List Stmt × Parser :=
  parseProgramLoop fuel p []

/-- Lex and parse a source text: the program's statements and the parser's
accumulated error list. -/
def parseSource (fuel : Nat) (source : String) : List Stmt × List String :=
  let r := ParseProgram fuel (Parser.New (Lexer.New source.data))
  (r.fst, r.snd.errors)

/-- Result of a builtin's host function: the returned object, or a Go panic. -/
inductive BRes : Type where
  | ok (value : Object)
  | panic (message : String)
deriving Repr

/-- The `len` builtin of the builtins table (src/lexer/lexer.go, the
`package evaluator` section): exactly one argument, else the `wrong number
of arguments` Error; a String argument yields its byte length as an
Integer; any other argument falls to the default case and yields the
`argument to len not supported` Error (whose format call `args[0].Type()`
panics on a nil argument).  There is no Array case in this table. -/
def lenBuiltin (args : List (Option Object)) : BRes :=
  if args.length != 1 then
    .ok (.error ("wrong number of arguments. got=" ++ toString args.length ++
      ", want=1"))
  else
    match args.getD 0 none with
    | some (.string value) => .ok (.integer (value.utf8ByteSize : Int))
    | some other =>
      .ok (.error ("argument to `len` not supported, got " ++ other.typeTag))
    | none => .panic nilDerefMsg

/-- The local store content of the environment at a heap address. -/
def heapStoreGet (h : Heap) (addr : Nat) (name : String) :
    Option (Option Object) :=
  match h.get? addr with
  | some e => storeGet e.store name
  | none => none

theorem storeGet_storeSet_self (s : List (String × Option Object))
    (name : String) (val : Option Object) :
    storeGet (storeSet s name val) name = some val := by
  induction s with
  | nil => simp [storeSet, storeGet]
  | cons kv rest ih =>
    obtain ⟨k, v⟩ := kv
    by_cases hk : k = name
    · subst hk
      simp [storeSet, storeGet]
    · have hk' : (k == name) = false := by simpa using hk
      simp [storeSet, storeGet, hk', ih]

theorem storeGet_storeSet_other (s : List (String × Option Object))
    (name name' : String) (val : Option Object) (h : name' ≠ name) :
    storeGet (storeSet s name val) name' = storeGet s name' := by
  have h' : (name == name') = false := by
    simpa using fun e => h e.symm
  induction s with
  | nil => simp [storeSet, storeGet, h']
  | cons kv rest ih =>
    obtain ⟨k, v⟩ := kv
    by_cases hk : k = name
    · subst hk
      simp [storeSet, storeGet, h']
    · have hk' : (k == name) = false := by simpa using hk
      simp only [storeSet, hk', if_false, storeGet, ih]

theorem Set_get?_other (h : Heap) (addr : Nat) (name : String)
    (val : Option Object) (addr' : Nat) (hne : addr' ≠ addr) :
    (Environment.Set h addr name val).get? addr' = h.get? addr' := by
  unfold Environment.Set
  cases hm : h.get? addr with
  | none => rfl
  | some e => exact List.get?_set_ne _ _ (fun hh => hne hh.symm)

theorem Set_get?_same (h : Heap) (addr : Nat) (name : String)
    (val : Option Object) (e : Environment) (he : h.get? addr = some e) :
    (Environment.Set h addr name val).get? addr =
      some { e with store := storeSet e.store name val } := by
  unfold Environment.Set
  rw [he]
  obtain ⟨hlt, -⟩ := List.get?_eq_some.mp he
  exact List.get?_set_eq_of_lt _ hlt

theorem Set_outer (h : Heap) (addr : Nat) (name : String)
    (val : Option Object) :
    ((Environment.Set h addr name val).get? addr).map Environment.outer =
      (h.get? addr).map Environment.outer := by
  cases he : h.get? addr with
  | none =>
    have hS : Environment.Set h addr name val = h := by
      unfold Environment.Set; rw [he]
    rw [hS, he]
  | some e => rw [Set_get?_same h addr name val e he]; rfl

theorem heapStoreGet_Set_self (h : Heap) (addr : Nat) (name : String)
    (val : Option Object) (e : Environment) (he : h.get? addr = some e) :
    heapStoreGet (Environment.Set h addr name val) addr name = some val := by
  unfold heapStoreGet
  rw [Set_get?_same h addr name val e he]
  exact storeGet_storeSet_self _ _ _

theorem heapStoreGet_Set_other_name (h : Heap) (addr : Nat)
    (name name' : String) (val : Option Object) (hne : name' ≠ name) :
    heapStoreGet (Environment.Set h addr name val) addr name' =
      heapStoreGet h addr name' := by
  unfold heapStoreGet
  cases he : h.get? addr with
  | none =>
    have hS : Environment.Set h addr name val = h := by
      unfold Environment.Set; rw [he]
    rw [hS, he]
  | some e =>
    rw [Set_get?_same h addr name val e he]
    exact storeGet_storeSet_other _ _ _ _ hne

theorem Set_isSome (h : Heap) (addr : Nat) (name : String)
    (val : Option Object) (e : Environment) (he : h.get? addr = some e) :
    ∃ e', (Environment.Set h addr name val).get? addr = some e' :=
  ⟨_, Set_get?_same h addr name val e he⟩

theorem bindParameters_get?_other (params : List String) :
    ∀ (h : Heap) (addr idx : Nat) (args : List (Option Object)) (h' : Heap)
      (a : Nat), a ≠ addr → bindParameters h addr params idx args = .ok h' →
      h'.get? a = h.get? a := by
  induction params with
  | nil =>
    intro h addr idx args h' a hne hb
    simp [bindParameters] at hb
    rw [hb]
  | cons p rest ih =>
    intro h addr idx args h' a hne hb
    unfold bindParameters at hb
    cases hg : args.get? idx with
    | none => rw [hg] at hb; exact absurd hb (by simp)
    | some arg =>
      rw [hg] at hb
      rw [ih _ _ _ _ _ _ hne hb]
      exact Set_get?_other h addr p arg a hne

theorem bindParameters_outer (params : List String) :
    ∀ (h : Heap) (addr idx : Nat) (args : List (Option Object)) (h' : Heap),
      bindParameters h addr params idx args = .ok h' →
      (h'.get? addr).map Environment.outer =
        (h.get? addr).map Environment.outer := by
  induction params with
  | nil =>
    intro h addr idx args h' hb
    simp [bindParameters] at hb
    rw [hb]
  | cons p rest ih =>
    intro h addr idx args h' hb
    unfold bindParameters at hb
    cases hg : args.get? idx with
    | none => rw [hg] at hb; exact absurd hb (by simp)
    | some arg =>
      rw [hg] at hb
      rw [ih _ _ _ _ _ hb]
      exact Set_outer h addr p arg

theorem bindParameters_storeGet_notin (params : List String) (n : String)
    (hn : ∀ q ∈ params, q ≠ n) :
    ∀ (h : Heap) (addr idx : Nat) (args : List (Option Object)) (h' : Heap),
      bindParameters h addr params idx args = .ok h' →
      heapStoreGet h' addr n = heapStoreGet h addr n := by
  induction params with
  | nil =>
    intro h addr idx args h' hb
    simp [bindParameters] at hb
    rw [hb]
  | cons p rest ih =>
    intro h addr idx args h' hb
    unfold bindParameters at hb
    cases hg : args.get? idx with
    | none => rw [hg] at hb; exact absurd hb (by simp)
    | some arg =>
      rw [hg] at hb
      rw [ih (fun q hq => hn q (List.mem_cons_of_mem p hq)) _ _ _ _ _ hb]
      exact heapStoreGet_Set_other_name h addr p n arg
        (fun e => hn p (List.mem_cons_self p rest) e.symm)

theorem bindParameters_tooFew (params : List String) :
    ∀ (h : Heap) (addr idx : Nat) (args : List (Option Object)),
      args.length < idx + params.length → 0 < params.length →
      bindParameters h addr params idx args = .error indexOutOfRangeMsg := by
  induction params with
  | nil => intro h addr idx args hlt hpos; simp at hpos
  | cons p rest ih =>
    intro h addr idx args hlt _
    unfold bindParameters
    cases hg : args.get? idx with
    | none => rfl
    | some arg =>
      have hidx : idx < args.length := by
        by_contra hc
        rw [List.get?_eq_none.mpr (Nat.le_of_not_lt hc)] at hg
        exact Option.noConfusion hg
      cases rest with
      | nil => simp at hlt; omega
      | cons q qs =>
        exact ih _ _ _ _ (by simp at hlt ⊢; omega) (by simp)

theorem bindParameters_pos (params : List String) :
    ∀ (h : Heap) (addr idx : Nat) (args : List (Option Object)) (h' : Heap)
      (i : Nat) (hi : i < params.length),
      params.Nodup → (∃ e, h.get? addr = some e) →
      idx + params.length ≤ args.length →
      bindParameters h addr params idx args = .ok h' →
      heapStoreGet h' addr (params.get ⟨i, hi⟩) =
        some (args.getD (idx + i) none) := by
  induction params with
  | nil => intro h addr idx args h' i hi; simp at hi
  | cons p rest ih =>
    intro h addr idx args h' i hi hnd ⟨e, he⟩ hlen hb
    unfold bindParameters at hb
    cases hg : args.get? idx with
    | none => rw [hg] at hb; exact absurd hb (by simp)
    | some arg =>
      rw [hg] at hb
      cases i with
      | zero =>
        have hnotin : ∀ q ∈ rest, q ≠ p := fun q hq e' =>
          (List.nodup_cons.mp hnd).1 (e' ▸ hq)
        rw [show (p :: rest).get ⟨0, hi⟩ = p from rfl]
        rw [bindParameters_storeGet_notin rest p hnotin _ _ _ _ _ hb]
        rw [heapStoreGet_Set_self h addr p arg e he]
        have : args.getD idx none = arg := by
          rw [List.getD_eq_get?, hg]; rfl
        rw [Nat.add_zero, this]
      | succ j =>
        have hj : j < rest.length := by simpa using hi
        have := ih (Environment.Set h addr p arg) addr (idx + 1) args h' j hj
          (List.nodup_cons.mp hnd).2
          (Set_isSome h addr p arg e he)
          (by simp only [List.length_cons] at hlen; omega) hb
        rw [show (p :: rest).get ⟨j + 1, hi⟩ = rest.get ⟨j, hj⟩ from rfl]
        have harg : idx + 1 + j = idx + (j + 1) := by omega
        rw [harg] at this
        exact this

theorem bindParameters_take (params : List String) :
    ∀ (h : Heap) (addr idx : Nat) (args : List (Option Object)) (n : Nat),
      idx + params.length ≤ n →
      bindParameters h addr params idx (args.take n) =
        bindParameters h addr params idx args := by
  induction params with
  | nil => intros; rfl
  | cons p rest ih =>
    intro h addr idx args n hle
    unfold bindParameters
    have ht : (args.take n).get? idx = args.get? idx :=
      List.get?_take (by simp at hle; omega)
    rw [ht]
    cases args.get? idx with
    | none => rfl
    | some arg => exact ih _ _ _ _ _ (by simp at hle ⊢; omega)

theorem extendFunctionEnv_addr_outer (h : Heap) (parameters : List String)
    (fnEnv : Nat) (args : List (Option Object)) (addr : Nat) (h1 : Heap)
    (hx : extendFunctionEnv h parameters fnEnv args = .ok (addr, h1)) :
    addr = h.length ∧
      (h1.get? addr).map Environment.outer = some (some fnEnv) := by
  simp only [extendFunctionEnv] at hx
  cases hb : bindParameters (h ++ [NewEnclosedEnvironment fnEnv]) h.length
      parameters 0 args with
  | error m => rw [hb] at hx; exact absurd hx (by simp)
  | ok h2 =>
    rw [hb] at hx
    simp at hx
    obtain ⟨ha, hh⟩ := hx
    subst ha; subst hh
    refine ⟨rfl, ?_⟩
    rw [bindParameters_outer parameters _ _ _ _ _ hb]
    rw [List.get?_concat_length]
    rfl

theorem extendFunctionEnv_tooFew (h : Heap) (parameters : List String)
    (fnEnv : Nat) (args : List (Option Object))
    (hlt : args.length < parameters.length) :
    extendFunctionEnv h parameters fnEnv args = .error indexOutOfRangeMsg := by
  simp only [extendFunctionEnv]
  rw [bindParameters_tooFew parameters _ _ 0 args (by omega) (by omega)]

theorem extendFunctionEnv_pos (h : Heap) (parameters : List String)
    (fnEnv : Nat) (args : List (Option Object)) (addr : Nat) (h1 : Heap)
    (i : Nat) (hi : i < parameters.length) (hnd : parameters.Nodup)
    (hlen : parameters.length ≤ args.length)
    (hx : extendFunctionEnv h parameters fnEnv args = .ok (addr, h1)) :
    heapStoreGet h1 addr (parameters.get ⟨i, hi⟩) =
      some (args.getD i none) := by
  simp only [extendFunctionEnv] at hx
  cases hb : bindParameters (h ++ [NewEnclosedEnvironment fnEnv]) h.length
      parameters 0 args with
  | error m => rw [hb] at hx; exact absurd hx (by simp)
  | ok h2 =>
    rw [hb] at hx
    simp at hx
    obtain ⟨ha, hh⟩ := hx
    subst ha; subst hh
    have := bindParameters_pos parameters _ _ 0 args _ i hi hnd
      ⟨NewEnclosedEnvironment fnEnv, List.get?_concat_length _ _⟩
      (by omega) hb
    simpa using this

theorem extendFunctionEnv_take (h : Heap) (parameters : List String)
    (fnEnv : Nat) (args : List (Option Object)) :
    extendFunctionEnv h parameters fnEnv args =
      extendFunctionEnv h parameters fnEnv (args.take parameters.length) := by
  simp only [extendFunctionEnv]
  rw [bindParameters_take parameters _ _ 0 args parameters.length (by omega)]

theorem Get_local (h : Heap) (fuel addr : Nat) (name : String)
    (e : Environment) (v : Option Object) (he : h.get? addr = some e)
    (hs : storeGet e.store name = some v) :
    Environment.Get h (fuel + 1) addr name = some v := by
  simp only [Environment.Get, he, hs]

theorem Get_delegate (h : Heap) (fuel addr : Nat) (name : String)
    (e : Environment) (he : h.get? addr = some e)
    (hs : storeGet e.store name = none) :
    Environment.Get h (fuel + 1) addr name =
      (match e.outer with
       | some o => Environment.Get h fuel o name
       | none => none) := by
  simp only [Environment.Get, he, hs]

/-- Claim C8: in an environment chain, Get returns the binding from the
innermost store containing the name and delegates to the outer environment
only when the local store lacks it; Set writes only to the local store,
leaving every other environment — and the target's outer link and other
bindings — unchanged; and a function call's fresh environment has the
function's captured environment as its outer. -/
theorem C8_env_semantics :
    (∀ (h : Heap) (fuel addr : Nat) (name : String) (e : Environment)
        (v : Option Object), h.get? addr = some e →
      storeGet e.store name = some v →
      Environment.Get h (fuel + 1) addr name = some v)
  ∧ (∀ (h : Heap) (fuel addr : Nat) (name : String) (e : Environment),
      h.get? addr = some e → storeGet e.store name = none →
      Environment.Get h (fuel + 1) addr name =
        (match e.outer with
         | some o => Environment.Get h fuel o name
         | none => none))
  ∧ (∀ (h : Heap) (addr : Nat) (name : String) (val : Option Object)
        (addr' : Nat), addr' ≠ addr →
      (Environment.Set h addr name val).get? addr' = h.get? addr')
  ∧ (∀ (h : Heap) (addr : Nat) (name : String) (val : Option Object),
      ((Environment.Set h addr name val).get? addr).map Environment.outer =
        (h.get? addr).map Environment.outer)
  ∧ (∀ (h : Heap) (addr : Nat) (name name' : String) (val : Option Object),
      name' ≠ name →
      heapStoreGet (Environment.Set h addr name val) addr name' =
        heapStoreGet h addr name')
  ∧ (∀ (h : Heap) (parameters : List String) (fnEnv : Nat)
        (args : List (Option Object)) (addr : Nat) (h1 : Heap),
      extendFunctionEnv h parameters fnEnv args = .ok (addr, h1) →
      (h1.get? addr).map Environment.outer = some (some fnEnv)) :=
  ⟨Get_local, Get_delegate,
   fun h addr name val addr' hne => Set_get?_other h addr name val addr' hne,
   Set_outer,
   fun h addr name name' val hne =>
     heapStoreGet_Set_other_name h addr name name' val hne,
   fun h parameters fnEnv args addr h1 hx =>
     (extendFunctionEnv_addr_outer h parameters fnEnv args addr h1 hx).2⟩

/-- Witness for C8 at concrete inputs: a two-environment chain where the
inner store shadows the outer binding of "x"; a Set touching only address 0;
and a concrete call environment whose outer is the captured address 0. -/
theorem C8_env_semantics_witness :
    ([NewEnvironment,
      { store := [("x", some (Object.integer 1))], outer := some 0 }] :
        Heap).get? 1 =
      some { store := [("x", some (Object.integer 1))], outer := some 0 }
  ∧ storeGet [("x", some (Object.integer 1))] "x" = some (some (.integer 1))
  ∧ Environment.Get
      [NewEnvironment,
       { store := [("x", some (Object.integer 1))], outer := some 0 }]
      2 1 "x" = some (some (.integer 1))
  ∧ (2 : Nat) ≠ 0
  ∧ (Environment.Set [NewEnvironment, NewEnvironment, NewEnvironment] 0 "y"
      (some (.integer 7))).get? 2 =
      ([NewEnvironment, NewEnvironment, NewEnvironment] : Heap).get? 2
  ∧ extendFunctionEnv initialHeap ["x"] 0 [some (.integer 1)] =
      .ok (1, [NewEnvironment,
        { store := [("x", some (Object.integer 1))], outer := some 0 }])
  ∧ (([NewEnvironment,
        { store := [("x", some (Object.integer 1))], outer := some 0 }] :
          Heap).get? 1).map Environment.outer = some (some 0) :=
  ⟨rfl, rfl,
   C8_env_semantics.1
     [NewEnvironment,
      { store := [("x", some (Object.integer 1))], outer := some 0 }]
     1 1 "x" { store := [("x", some (Object.integer 1))], outer := some 0 }
     (some (.integer 1)) rfl rfl,
   by decide,
   C8_env_semantics.2.2.1 [NewEnvironment, NewEnvironment, NewEnvironment]
     0 "y" (some (.integer 7)) 2 (by decide),
   rfl,
   C8_env_semantics.2.2.2.2.2 initialHeap ["x"] 0 [some (.integer 1)] 1
     [NewEnvironment,
      { store := [("x", some (Object.integer 1))], outer := some 0 }] rfl⟩

/-- The program `let f = fn(x) { x; } f();`, as parsed by the embedded
parser: a one-parameter function called with no arguments. -/
def tooFewArgsProgram : Node :=
  .program (parseSource 99 "let f = fn(x) \x7b x; \x7d f();").fst

/-- Claim C3 as stated is false: calling the one-parameter function `f` with
no arguments does not evaluate the body with `x` unbound — the binding loop
reads `args[0]` out of range and the host panics, so no Error value
(`identifier not found`) is ever produced. -/
theorem C3_counterexample :
    Eval 20 tooFewArgsProgram 0 initialHeap = .panic indexOutOfRangeMsg := rfl

/-- Claim C3 (amended): parameters are bound positionally to the evaluated
arguments in a fresh environment whose outer is the closure's captured
environment, and extra arguments beyond the parameter list are ignored; but
when fewer arguments than parameters are supplied the binding loop indexes
the argument slice out of range and the call aborts with a host runtime
failure instead of evaluating the body. -/
theorem C3_call_binding :
    (∀ (h : Heap) (parameters : List String) (fnEnv : Nat)
        (args : List (Option Object)) (addr : Nat) (h1 : Heap),
      extendFunctionEnv h parameters fnEnv args = .ok (addr, h1) →
      addr = h.length ∧
        (h1.get? addr).map Environment.outer = some (some fnEnv))
  ∧ (∀ (h : Heap) (parameters : List String) (fnEnv : Nat)
        (args : List (Option Object)) (addr : Nat) (h1 : Heap) (i : Nat)
        (hi : i < parameters.length),
      parameters.Nodup → parameters.length ≤ args.length →
      extendFunctionEnv h parameters fnEnv args = .ok (addr, h1) →
      heapStoreGet h1 addr (parameters.get ⟨i, hi⟩) =
        some (args.getD i none))
  ∧ (∀ (h : Heap) (parameters : List String) (fnEnv : Nat)
        (args : List (Option Object)),
      extendFunctionEnv h parameters fnEnv args =
        extendFunctionEnv h parameters fnEnv
          (args.take parameters.length))
  ∧ (∀ (h : Heap) (parameters : List String) (fnEnv : Nat)
        (args : List (Option Object)),
      args.length < parameters.length →
      extendFunctionEnv h parameters fnEnv args =
        .error indexOutOfRangeMsg)
  ∧ (∀ (fuel : Nat) (h : Heap) (parameters : List String)
        (body : List Stmt) (fnEnv : Nat) (args : List (Option Object)),
      args.length < parameters.length →
      applyFunction (Eval fuel) (some (.function parameters body fnEnv))
        args h = .panic indexOutOfRangeMsg) := by
  refine ⟨extendFunctionEnv_addr_outer,
    fun h parameters fnEnv args addr h1 i hi hnd hlen hx =>
      extendFunctionEnv_pos h parameters fnEnv args addr h1 i hi hnd hlen hx,
    fun h parameters fnEnv args => extendFunctionEnv_take h parameters fnEnv args,
    extendFunctionEnv_tooFew,
    fun fuel h parameters body fnEnv args hlt => ?_⟩
  simp only [applyFunction]
  rw [extendFunctionEnv_tooFew h parameters fnEnv args hlt]

/-- Witness for C3 at concrete inputs: a two-parameter function applied to
three arguments — the fresh environment is at the old heap top with outer 0,
the parameters are bound positionally, the third argument is ignored — and a
one-parameter function applied to no arguments, which panics. -/
theorem C3_call_binding_witness :
    extendFunctionEnv initialHeap ["x", "y"] 0
        [some (.integer 1), some (.integer 2), some (.integer 3)] =
      .ok (1, [NewEnvironment,
        { store := [("x", some (Object.integer 1)),
                    ("y", some (Object.integer 2))], outer := some 0 }])
  ∧ (["x", "y"] : List String).Nodup
  ∧ heapStoreGet
      [NewEnvironment,
       { store := [("x", some (Object.integer 1)),
                   ("y", some (Object.integer 2))], outer := some 0 }]
      1 "y" = some (some (.integer 2))
  ∧ extendFunctionEnv initialHeap ["x", "y"] 0
      [some (.integer 1), some (.integer 2), some (.integer 3)] =
    extendFunctionEnv initialHeap ["x", "y"] 0
      [some (.integer 1), some (.integer 2)]
  ∧ applyFunction (Eval 5) (some (.function ["x"] [] 0)) [] initialHeap =
      .panic indexOutOfRangeMsg := by
  refine ⟨rfl, by decide, ?_, ?_, ?_⟩
  · have := C3_call_binding.2.1 initialHeap ["x", "y"] 0
      [some (.integer 1), some (.integer 2), some (.integer 3)] 1
      [NewEnvironment,
       { store := [("x", some (Object.integer 1)),
                   ("y", some (Object.integer 2))], outer := some 0 }]
      1 (by decide) (by decide) (by decide) rfl
    simpa using this
  · exact C3_call_binding.2.2.1 initialHeap ["x", "y"] 0
      [some (.integer 1), some (.integer 2), some (.integer 3)]
  · exact C3_call_binding.2.2.2.2 5 initialHeap ["x"] [] 0 [] (by decide)

/-- Claim C1 as stated is false: evaluating the LetStatement `let x = 5;` in
the session-start environment returns Go's nil — the arm sets the binding
and falls through the switch to `return nil` — not a concrete Value. -/
theorem C1_counterexample :
    Eval 3 (.stmt (.letStmt "x" (.integerLiteral 5))) 0 initialHeap =
      .ok none [{ store := [("x", some (Object.integer 5))], outer := none }] :=
  rfl

/-- Claim C1 (amended): for every environment, Eval returns a concrete Value
for the literal expression kinds (IntegerLiteral, StringLiteral, Boolean)
and for FunctionLiteral; but a LetStatement whose value evaluates without
error returns null (no Value) — its switch arm only sets the binding — so
null, not a Value, is also what Programs and Blocks ending in a let yield. -/
theorem C1_literals_total :
    (∀ (fuel env : Nat) (h : Heap) (v : Int),
      Eval (fuel + 1) (.expr (.integerLiteral v)) env h =
        .ok (some (.integer v)) h)
  ∧ (∀ (fuel env : Nat) (h : Heap) (s : String),
      Eval (fuel + 1) (.expr (.stringLiteral s)) env h =
        .ok (some (.string s)) h)
  ∧ (∀ (fuel env : Nat) (h : Heap) (b : Bool),
      Eval (fuel + 1) (.expr (.boolean b)) env h =
        .ok (some (nativeBoolToBooleanObject b)) h)
  ∧ (∀ (fuel env : Nat) (h : Heap) (parameters : List String)
        (body : List Stmt),
      Eval (fuel + 1) (.expr (.functionLiteral parameters body)) env h =
        .ok (some (.function parameters body env)) h)
  ∧ (∀ (fuel env : Nat) (h h' : Heap) (name : String) (value : Expr)
        (val : Option Object),
      Eval fuel (.expr value) env h = .ok val h' → isError val = false →
      Eval (fuel + 1) (.stmt (.letStmt name value)) env h =
        .ok none (Environment.Set h' env name val)) := by
  refine ⟨fun fuel env h v => rfl, fun fuel env h s => rfl,
    fun fuel env h b => rfl, fun fuel env h ps body => rfl,
    fun fuel env h h' name value val hv he => ?_⟩
  simp only [Eval, evalStep, hv, he]
  rfl

/-- Witness for C1 at concrete inputs: `5` evaluates to Integer 5 without
error, and `let x = 5;` then evaluates to null with the binding written. -/
theorem C1_literals_total_witness :
    Eval 2 (.expr (.integerLiteral 5)) 0 initialHeap =
      .ok (some (.integer 5)) initialHeap
  ∧ isError (some (.integer 5)) = false
  ∧ Eval 3 (.stmt (.letStmt "x" (.integerLiteral 5))) 0 initialHeap =
      .ok none (Environment.Set initialHeap 0 "x" (some (.integer 5))) :=
  ⟨rfl, rfl,
   C1_literals_total.2.2.2.2 2 0 initialHeap initialHeap "x"
     (.integerLiteral 5) (some (.integer 5)) rfl rfl⟩

/-- The program `if (10 > 1) { if (10 > 1) { return 10; } return 1; }` of
the specification's scenario 6, as parsed by the embedded parser. -/
def nestedReturnProgram : Node :=
  .program (parseSource 99
    "if (10 > 1) \x7b if (10 > 1) \x7b return 10; \x7d return 1; \x7d").fst

/-- Claim C2: a block returns the first ReturnValue or Error result without
unwrapping it, skipping the remaining statements, while a normal result lets
the loop continue with the rest (so the first wrapped result is the one
returned); unwrapping happens at the Program boundary (evalProgram returns
the wrapped value) and at the function-call boundary (applyFunction unwraps
the body's result); and the doubly nested return program yields
Integer 10. -/
theorem C2_return_bubbling :
    (∀ (fuel : Nat) (s : Stmt) (rest : List Stmt) (env : Nat) (h h' : Heap)
        (v : Object),
      Eval fuel (.stmt s) env h = .ok (some v) h' →
      (v.typeTag = RETURN_VALUE_OBJ ∨ v.typeTag = ERROR_OBJ) →
      evalBlockStatement fuel (s :: rest) env h = .ok (some v) h')
  ∧ (∀ (fuel : Nat) (s : Stmt) (rest : List Stmt) (env : Nat) (h h' : Heap)
        (v : Option Object),
      Eval fuel (.stmt s) env h = .ok v h' → isError v = false →
      (∀ w, v = some w → w.typeTag ≠ RETURN_VALUE_OBJ) →
      evalBlockStatement fuel (s :: rest) env h =
        evalBlockLoop (Eval fuel) rest env h' v)
  ∧ (∀ (fuel : Nat) (s : Stmt) (rest : List Stmt) (env : Nat) (h h' : Heap)
        (v : Option Object),
      Eval fuel (.stmt s) env h = .ok (some (.returnValue v)) h' →
      evalProgram fuel (s :: rest) env h = .ok v h')
  ∧ (∀ (fuel : Nat) (parameters : List String) (body : List Stmt)
        (fnEnv : Nat) (args : List (Option Object)) (h : Heap) (addr : Nat)
        (h1 : Heap) (v : Option Object) (h2 : Heap),
      extendFunctionEnv h parameters fnEnv args = .ok (addr, h1) →
      Eval fuel (.block body) addr h1 = .ok v h2 →
      applyFunction (Eval fuel) (some (.function parameters body fnEnv))
        args h = .ok (unwrapReturnValue v) h2)
  ∧ Eval 20 nestedReturnProgram 0 initialHeap =
      .ok (some (.integer 10)) initialHeap := by
  refine ⟨?_, ?_, ?_, ?_, rfl⟩
  · intro fuel s rest env h h' v hv hrt
    have hc : (v.typeTag == RETURN_VALUE_OBJ || v.typeTag == ERROR_OBJ)
        = true := by
      rcases hrt with h1 | h1 <;> simp [h1]
    simp only [evalBlockStatement, evalBlockLoop, hv, hc, if_true]
  · intro fuel s rest env h h' v hv herr hrv
    cases v with
    | none => simp only [evalBlockStatement, evalBlockLoop, hv]
    | some w =>
      have hc : (w.typeTag == RETURN_VALUE_OBJ || w.typeTag == ERROR_OBJ)
          = false := by
        have h1 := hrv w rfl
        have h2 : w.typeTag ≠ ERROR_OBJ := by simpa [isError] using herr
        simp [h1, h2]
      simp [evalBlockStatement, evalBlockLoop, hv, hc]
  · intro fuel s rest env h h' v hv
    simp only [evalProgram, evalProgramLoop, hv]
  · intro fuel parameters body fnEnv args h addr h1 v h2 hx hb
    simp only [applyFunction, hx, hb]

/-- Witness for C2 at concrete inputs: `return 10;` evaluates to a wrapped
ReturnValue; a block starting with it returns the wrapper unchanged and
skips the rest; a program consisting of it returns the unwrapped Integer. -/
theorem C2_return_bubbling_witness :
    Eval 5 (.stmt (.returnStmt (.integerLiteral 10))) 0 initialHeap =
      .ok (some (.returnValue (some (.integer 10)))) initialHeap
  ∧ (Object.returnValue (some (.integer 10))).typeTag = RETURN_VALUE_OBJ
  ∧ evalBlockStatement 5
      [.returnStmt (.integerLiteral 10), .exprStmt (.integerLiteral 1)]
      0 initialHeap =
      .ok (some (.returnValue (some (.integer 10)))) initialHeap
  ∧ evalProgram 5 [.returnStmt (.integerLiteral 10)] 0 initialHeap =
      .ok (some (.integer 10)) initialHeap :=
  ⟨rfl, rfl,
   C2_return_bubbling.1 5 _ _ 0 initialHeap initialHeap _ rfl (Or.inl rfl),
   C2_return_bubbling.2.2.1 5 _ [] 0 initialHeap initialHeap _ rfl⟩

/-- Claim C4 as stated is false twice over.  The Array clause: `len` applied
to one Array argument does not return the element count — there is no Array
case in this revision's builtin, so the default case yields the
`argument to len not supported` Error instead of Integer 0.  The
program-level clause: `len("hello world");` does not evaluate to Integer 11
in this revision — its parse records the `no prefix parse function for
STRING found` error (no prefix parser is registered for STRING tokens), and
the evaluator never consults the builtins table, so even the directly built
call AST evaluates to the `identifier not found: len` Error. -/
theorem C4_counterexample :
    lenBuiltin [some (.array [])] =
      .ok (.error "argument to `len` not supported, got ARRAY")
  ∧ lenBuiltin [some (.array [])] ≠ .ok (.integer 0)
  ∧ "no prefix parse function for STRING found" ∈
      (parseSource 99 "len(\"hello world\");").snd
  ∧ Eval 20 (.program [.exprStmt (.callExpr (.identifier "len")
      [.stringLiteral "hello world"])]) 0 initialHeap =
      .ok (some (.error "identifier not found: len")) initialHeap := by
  refine ⟨rfl, ?_, by decide, rfl⟩
  intro hc
  have h0 : lenBuiltin [some (.array [])] =
      .ok (.error "argument to `len` not supported, got ARRAY") := rfl
  rw [h0] at hc
  simp at hc

/-- Claim C4 (amended): the builtin `len` applied to exactly one String
argument returns an Integer equal to the string's byte length (on
"hello world", Integer 11); any other argument kind — an Array included,
which yields the `argument to len not supported, got ARRAY` Error rather
than the element count — or an argument count other than one returns an
Error value rather than a host failure.  (The builtin is exercised at the
function level because the program-level clause fails independently in this
revision, as the counterexample shows: the parser has no prefix parser for
STRING tokens, and the evaluator resolves `len` through the environment
alone, yielding `identifier not found: len`.) -/
theorem C4_len_builtin :
    (∀ s : String, lenBuiltin [some (.string s)] =
      .ok (.integer (s.utf8ByteSize : Int)))
  ∧ lenBuiltin [some (.string "hello world")] = .ok (.integer 11)
  ∧ (∀ args : List (Option Object), args.length ≠ 1 →
      lenBuiltin args = .ok (.error ("wrong number of arguments. got=" ++
        toString args.length ++ ", want=1")))
  ∧ (∀ o : Object, o.typeTag ≠ STRING_OBJ →
      lenBuiltin [some o] =
        .ok (.error ("argument to `len` not supported, got " ++ o.typeTag)))
  ∧ (∀ elements : List Object, lenBuiltin [some (.array elements)] =
      .ok (.error "argument to `len` not supported, got ARRAY")) := by
  refine ⟨fun s => rfl, rfl, ?_, ?_, fun elements => rfl⟩
  · intro args hne
    have hb : (args.length != 1) = true := by simpa using hne
    simp [lenBuiltin, hb]
  · intro o hne
    cases o with
    | string s => exact absurd rfl hne
    | integer v => rfl
    | boolean b => rfl
    | null => rfl
    | returnValue v => rfl
    | error m => rfl
    | function ps b e => rfl
    | array es => rfl

/-- Witness for C4 at concrete inputs: a two-argument call and a Boolean
argument both produce Error values. -/
theorem C4_len_builtin_witness :
    (([some (Object.integer 1), some (Object.integer 2)] :
        List (Option Object)).length ≠ 1)
  ∧ lenBuiltin [some (.integer 1), some (.integer 2)] =
      .ok (.error "wrong number of arguments. got=2, want=1")
  ∧ (Object.boolean true).typeTag ≠ STRING_OBJ
  ∧ lenBuiltin [some (.boolean true)] =
      .ok (.error "argument to `len` not supported, got BOOLEAN") := by
  refine ⟨by decide, ?_, by decide, ?_⟩
  · exact C4_len_builtin.2.2.1 [some (.integer 1), some (.integer 2)]
      (by decide)
  · exact C4_len_builtin.2.2.2.1 (.boolean true) (by decide)

/-- Claim C5 as stated is false for the equality operators: `5 == true;` has
operands of different types, yet it evaluates to the Boolean FALSE (the ==
case of the infix switch runs before the type-mismatch case), not to a
`type mismatch` Error. -/
theorem C5_counterexample :
    Eval 20 (.program (parseSource 99 "5 == true;").fst) 0 initialHeap =
      .ok (some (.boolean false)) initialHeap
  ∧ Eval 20 (.program (parseSource 99 "5 == true;").fst) 0 initialHeap ≠
      .ok (some (.error "type mismatch: INTEGER == BOOLEAN")) initialHeap := by
  refine ⟨rfl, ?_⟩
  intro hc
  have h0 : Eval 20 (.program (parseSource 99 "5 == true;").fst) 0
      initialHeap = .ok (some (.boolean false)) initialHeap := rfl
  rw [h0] at hc
  simp at hc

/-- Claim C5 (amended): an infix expression whose operator is neither == nor
!= and whose operands have different types yields the
`type mismatch: <LT> <op> <RT>` Error (`5 + true;` yields
`type mismatch: INTEGER + BOOLEAN`); for == and != mixed-type operands are
compared by identity and yield a Boolean instead; and evaluating an
identifier bound nowhere in the environment chain yields the
`identifier not found: <name>` Error (`foobar;` yields
`identifier not found: foobar`). -/
theorem C5_infix_errors :
    (∀ (l r : Object) (op : String), op ≠ "==" → op ≠ "!=" →
      l.typeTag ≠ r.typeTag →
      evalInfixExpression op (some l) (some r) =
        .ok (some (.error ("type mismatch: " ++ l.typeTag ++ " " ++ op ++
          " " ++ r.typeTag))))
  ∧ Eval 20 (.program (parseSource 99 "5 + true;").fst) 0 initialHeap =
      .ok (some (.error "type mismatch: INTEGER + BOOLEAN")) initialHeap
  ∧ (∀ (h : Heap) (env fuel : Nat) (name : String),
      Environment.Get h h.length env name = none →
      Eval (fuel + 1) (.expr (.identifier name)) env h =
        .ok (some (.error ("identifier not found: " ++ name))) h)
  ∧ Eval 20 (.program (parseSource 99 "foobar;").fst) 0 initialHeap =
      .ok (some (.error "identifier not found: foobar")) initialHeap := by
  refine ⟨?_, rfl, ?_, rfl⟩
  · intro l r op hop1 hop2 hty
    have hob1 : (op == "==") = false := by simpa using hop1
    have hob2 : (op == "!=") = false := by simpa using hop2
    have hne : (l.typeTag != r.typeTag) = true := by simpa using hty
    by_cases hl : l.typeTag = INTEGER_OBJ
    · by_cases hr : r.typeTag = INTEGER_OBJ
      · exact absurd (hl.trans hr.symm) hty
      · have hlb : (l.typeTag == INTEGER_OBJ) = true := by simpa using hl
        have hrb : (r.typeTag == INTEGER_OBJ) = false := by simpa using hr
        simp [evalInfixExpression, evalInfixCases, hlb, hrb, hob1, hob2, hne]
    · have hlb : (l.typeTag == INTEGER_OBJ) = false := by simpa using hl
      simp [evalInfixExpression, evalInfixCases, hlb, hob1, hob2, hne]
  · intro h env fuel name hg
    simp only [Eval, evalStep, evalIdentifier, hg]

/-- Witness for C5 at concrete inputs: String + Integer is a type mismatch,
and an unbound name in the empty session environment is not found. -/
theorem C5_infix_errors_witness :
    (("+" : String) ≠ "==")
  ∧ evalInfixExpression "+" (some (.string "a")) (some (.integer 1)) =
      .ok (some (.error "type mismatch: STRING + INTEGER"))
  ∧ Environment.Get initialHeap 1 0 "nope" = none
  ∧ Eval 4 (.expr (.identifier "nope")) 0 initialHeap =
      .ok (some (.error "identifier not found: nope")) initialHeap := by
  refine ⟨by decide, ?_, rfl, ?_⟩
  · exact C5_infix_errors.1 (.string "a") (.integer 1) "+" (by decide)
      (by decide) (by decide)
  · exact C5_infix_errors.2.2.1 initialHeap 0 3 "nope" rfl

/-- Claim C6: expression parsing follows the precedence ladder —
`a + b * c` parses as (a + (b * c)), `a + b + c` left-associatively as
((a + b) + c), `-a * b` as ((-a) * b), each with no parse errors — and the
Pratt loop continues only while the given precedence is strictly less than
the peek token's precedence (when it is not, the loop returns the left
expression unchanged). -/
theorem C6_precedence_parses :
    parseSource 99 "a + b * c" =
      ([.exprStmt (.infixExpr "+" (.identifier "a")
          (.infixExpr "*" (.identifier "b") (.identifier "c")))], [])
  ∧ parseSource 99 "a + b + c" =
      ([.exprStmt (.infixExpr "+"
          (.infixExpr "+" (.identifier "a") (.identifier "b"))
          (.identifier "c"))], [])
  ∧ parseSource 99 "-a * b" =
      ([.exprStmt (.infixExpr "*" (.prefixExpr "-" (.identifier "a"))
          (.identifier "b"))], [])
  ∧ (∀ (fuel precedence : Nat) (leftExp : Expr) (p : Parser),
      ¬(precedence < p.peekPrecedence) →
      parseExpressionLoop (fuel + 1) precedence leftExp p =
        (some leftExp, p)) := by
  refine ⟨rfl, rfl, rfl, ?_⟩
  intro fuel precedence leftExp p hnl
  have hb : decide (precedence < p.peekPrecedence) = false := by
    simpa using hnl
  simp [parseExpressionLoop, hb]

/-- Witness for C6's loop-exit conjunct at a concrete parser state: at equal
precedences the strict-less-than test fails and the loop stops. -/
theorem C6_precedence_parses_witness :
    ¬((1 : Nat) < (Parser.New (Lexer.New ("a".data))).peekPrecedence)
  ∧ parseExpressionLoop 5 1 (.identifier "z")
      (Parser.New (Lexer.New ("a".data))) =
      (some (.identifier "z"), Parser.New (Lexer.New ("a".data))) :=
  ⟨by decide,
   C6_precedence_parses.2.2.2 4 1 (.identifier "z")
     (Parser.New (Lexer.New ("a".data))) (by decide)⟩

/-- Claim C9: every Boolean the evaluator produces is one of the two shared
singletons (`nativeBoolToBooleanObject` of the literal's value), so the
identity comparison of == and != agrees with logical equality on booleans
and NULL: `b1 == b2` yields TRUE exactly when the operands have the same
truth value, NULL == NULL yields TRUE, and a boolean is never equal to
NULL. -/
theorem C9_boolean_identity :
    (∀ (fuel env : Nat) (h : Heap) (b : Bool),
      Eval (fuel + 1) (.expr (.boolean b)) env h =
        .ok (some (nativeBoolToBooleanObject b)) h)
  ∧ (∀ a b : Bool,
      evalInfixExpression "==" (some (.boolean a)) (some (.boolean b)) =
        .ok (some (nativeBoolToBooleanObject (a == b))))
  ∧ (∀ a b : Bool,
      evalInfixExpression "!=" (some (.boolean a)) (some (.boolean b)) =
        .ok (some (nativeBoolToBooleanObject (a != b))))
  ∧ evalInfixExpression "==" (some NULL) (some NULL) = .ok (some TRUE)
  ∧ (∀ b : Bool,
      evalInfixExpression "==" (some (.boolean b)) (some NULL) =
        .ok (some FALSE))
  ∧ (∀ (fuel env : Nat) (h : Heap) (a b : Bool),
      Eval (fuel + 2)
          (.expr (.infixExpr "==" (.boolean a) (.boolean b))) env h =
        .ok (some (nativeBoolToBooleanObject (a == b))) h) := by
  refine ⟨fun fuel env h b => rfl, ?_, ?_, rfl, ?_, ?_⟩
  · intro a b; cases a <;> cases b <;> rfl
  · intro a b; cases a <;> cases b <;> rfl
  · intro b; cases b <;> rfl
  · intro fuel env h a b
    cases a <;> cases b <;> rfl

theorem wrap64_eq_self {x : Int} (h1 : -(2 ^ 63) ≤ x) (h2 : x < 2 ^ 63) :
    wrap64 x = x := by
  unfold wrap64; omega

/-- Claim C10: for Integer operands `/` computes the host int64 quotient,
truncating toward zero (`Int.tdiv`; within int64 range and away from the
lone wrapping pair, the most negative value divided by -1); the division is
unguarded, so a zero right operand does not produce an Error value —
evaluation aborts with the host's division panic, the one break in Eval's
totality. -/
theorem C10_division :
    (∀ l r : Int, r ≠ 0 → -(2 ^ 63) ≤ l → l < 2 ^ 63 → -(2 ^ 63) ≤ r →
      r < 2 ^ 63 → ¬(l = -(2 ^ 63) ∧ r = -1) →
      evalIntegerInfixExpression "/" (.integer l) (.integer r) =
        .ok (some (.integer (Int.tdiv l r))))
  ∧ (∀ l : Int, evalIntegerInfixExpression "/" (.integer l) (.integer 0) =
      .error divByZeroMsg)
  ∧ Eval 20 (.program (parseSource 99 "5 / 0").fst) 0 initialHeap =
      .panic divByZeroMsg := by
  refine ⟨?_, fun l => rfl, rfl⟩
  intro l r hr hl1 hl2 hr1 hr2 hexc
  have hrb : (r == 0) = false := by simpa using hr
  have hstep : evalIntegerInfixExpression "/" (.integer l) (.integer r) =
      if r == 0 then .error divByZeroMsg
      else .ok (some (.integer (wrap64 (Int.tdiv l r)))) := rfl
  have hbound : -(2 ^ 63) ≤ Int.tdiv l r ∧ Int.tdiv l r < 2 ^ 63 := by
    have habs : (Int.tdiv l r).natAbs = l.natAbs / r.natAbs :=
      Int.natAbs_tdiv l r
    have hdivle : l.natAbs / r.natAbs ≤ l.natAbs := Nat.div_le_self _ _
    rcases Nat.lt_or_ge r.natAbs 2 with hsmall | hbig
    · have : r = 1 ∨ r = -1 := by omega
      rcases this with h1 | h1
      · subst h1; rw [Int.tdiv_one]; omega
      · subst h1
        have hneg : Int.tdiv l (-1) = -l := by
          have := Int.tdiv_neg l 1
          rw [Int.tdiv_one] at this
          simp [this]
        rw [hneg]
        have : l ≠ -(2 ^ 63) := fun he => hexc ⟨he, rfl⟩
        omega
    · have h2 : l.natAbs / r.natAbs ≤ l.natAbs / 2 :=
        Nat.div_le_div_left hbig (by omega)
      have h3 : l.natAbs ≤ 2 ^ 63 := by omega
      have h4 : l.natAbs / 2 ≤ 2 ^ 63 / 2 := Nat.div_le_div_right h3
      omega
  rw [hstep, hrb]
  simp [wrap64_eq_self hbound.1 hbound.2]

/-- Witness for C10 at a concrete division: -7 / 2 truncates toward zero to
-3 (not toward minus infinity). -/
theorem C10_division_witness :
    ((2 : Int) ≠ 0)
  ∧ evalIntegerInfixExpression "/" (.integer (-7)) (.integer 2) =
      .ok (some (.integer (-3))) := by
  refine ⟨by decide, ?_⟩
  have := C10_division.1 (-7) 2 (by decide) (by decide) (by decide)
    (by decide) (by decide) (by decide)
  rw [show Int.tdiv (-7) 2 = (-3 : Int) from by decide] at this
  exact this

/-- The lexer state scanning `input` with the byte at index `p` under
examination: the state reached from `New` by `p` readChars (`ch` carries the
0 sentinel at or past the end). -/
def mkLexAt (input : List Char) (p : Nat) : Lexer :=
  { input := input, position := p, readPosition := p + 1,
    ch := if p ≥ input.length then charNul else input.getD p charNul }

theorem New_eq_mkLexAt (input : List Char) :
    Lexer.New input = mkLexAt input 0 := rfl

theorem readChar_mkLexAt (input : List Char) (p : Nat) :
    (mkLexAt input p).readChar = mkLexAt input (p + 1) := rfl

theorem mkLexAt_ch (input : List Char) (p : Nat) :
    (mkLexAt input p).ch = input.getD p charNul := by
  unfold mkLexAt
  split
  · rename_i hge
    rw [List.getD_eq_default _ _ hge]
  · rfl

theorem getD_append_self (xs ys : List Char) (d : Char) :
    (xs ++ ys).getD xs.length d = ys.getD 0 d := by
  induction xs with
  | nil => rfl
  | cons x rest ih => simpa using ih

theorem skipWhitespaceLoop_nonws (fuel : Nat) (l : Lexer)
    (h : (l.ch == ' ' || l.ch == '\t' || l.ch == '\n' || l.ch == '\r')
      = false) :
    skipWhitespaceLoop fuel l = l := by
  cases fuel <;> simp [skipWhitespaceLoop, h]

theorem skipWhitespace_nonws (l : Lexer)
    (h : (l.ch == ' ' || l.ch == '\t' || l.ch == '\n' || l.ch == '\r')
      = false) :
    l.skipWhitespace = l :=
  skipWhitespaceLoop_nonws _ _ h

theorem readStringLoop_stop (input : List Char) :
    ∀ (mid : List Char) (p fuel : Nat) (rest : List Char) (c : Char),
      input.drop (p + 1) = mid ++ c :: rest →
      (c = quoteChar ∨ c = charNul) →
      (∀ x ∈ mid, x ≠ quoteChar ∧ x ≠ charNul) →
      mid.length + 1 ≤ fuel →
      readStringLoop fuel (mkLexAt input p) =
        mkLexAt input (p + mid.length + 1) := by
  intro mid
  induction mid with
  | nil =>
    intro p fuel rest c hdrop hc hmem hfuel
    obtain ⟨f, rfl⟩ : ∃ f, fuel = f + 1 := ⟨fuel - 1, by omega⟩
    have hget : input.get? (p + 1) = some c := by
      have h0 : (input.drop (p + 1)).get? 0 = some c := by
        rw [hdrop]; rfl
      rwa [List.get?_drop] at h0
    have hch : (mkLexAt input (p + 1)).ch = c := by
      rw [mkLexAt_ch, List.getD_eq_get?, hget]; rfl
    have hcond : ((mkLexAt input (p + 1)).ch == quoteChar ||
        (mkLexAt input (p + 1)).ch == charNul) = true := by
      rw [hch]; rcases hc with rfl | rfl <;> simp
    simp only [readStringLoop, readChar_mkLexAt, hcond, if_true]
    rfl
  | cons m mid' ih =>
    intro p fuel rest c hdrop hc hmem hfuel
    obtain ⟨f, rfl⟩ : ∃ f, fuel = f + 1 := ⟨fuel - 1, by omega⟩
    have hget : input.get? (p + 1) = some m := by
      have h0 : (input.drop (p + 1)).get? 0 = some m := by
        rw [hdrop]; rfl
      rwa [List.get?_drop] at h0
    have hch : (mkLexAt input (p + 1)).ch = m := by
      rw [mkLexAt_ch, List.getD_eq_get?, hget]; rfl
    have hm := hmem m (List.mem_cons_self m mid')
    have hcond : ((mkLexAt input (p + 1)).ch == quoteChar ||
        (mkLexAt input (p + 1)).ch == charNul) = false := by
      rw [hch]; simp [hm.1, hm.2]
    have hdrop' : input.drop (p + 1 + 1) = mid' ++ c :: rest := by
      have := List.drop_drop 1 (p + 1) input
      rw [hdrop] at this
      simpa using this.symm
    have := ih (p + 1) f rest c hdrop' hc
      (fun x hx => hmem x (List.mem_cons_of_mem m hx)) (by simp at hfuel; omega)
    simp only [readStringLoop, readChar_mkLexAt, hcond, if_false]
    have harith : p + 1 + mid'.length + 1 = p + (m :: mid').length + 1 := by
      simp only [List.length_cons]; omega
    rw [← harith]
    exact this

theorem readStringLoop_end (input : List Char) :
    ∀ (mid : List Char) (p fuel : Nat),
      input.drop (p + 1) = mid →
      (∀ x ∈ mid, x ≠ quoteChar ∧ x ≠ charNul) →
      mid.length + 1 ≤ fuel →
      readStringLoop fuel (mkLexAt input p) =
        mkLexAt input (p + mid.length + 1) := by
  intro mid
  induction mid with
  | nil =>
    intro p fuel hdrop hmem hfuel
    obtain ⟨f, rfl⟩ : ∃ f, fuel = f + 1 := ⟨fuel - 1, by omega⟩
    have hlen : input.length ≤ p + 1 := by
      have := congrArg List.length hdrop
      simp at this
      omega
    have hch : (mkLexAt input (p + 1)).ch = charNul := by
      rw [mkLexAt_ch, List.getD_eq_default _ _ hlen]
    have hcond : ((mkLexAt input (p + 1)).ch == quoteChar ||
        (mkLexAt input (p + 1)).ch == charNul) = true := by
      rw [hch]; simp
    simp only [readStringLoop, readChar_mkLexAt, hcond, if_true]
    rfl
  | cons m mid' ih =>
    intro p fuel hdrop hmem hfuel
    obtain ⟨f, rfl⟩ : ∃ f, fuel = f + 1 := ⟨fuel - 1, by omega⟩
    have hget : input.get? (p + 1) = some m := by
      have h0 : (input.drop (p + 1)).get? 0 = some m := by
        rw [hdrop]; rfl
      rwa [List.get?_drop] at h0
    have hch : (mkLexAt input (p + 1)).ch = m := by
      rw [mkLexAt_ch, List.getD_eq_get?, hget]; rfl
    have hm := hmem m (List.mem_cons_self m mid')
    have hcond : ((mkLexAt input (p + 1)).ch == quoteChar ||
        (mkLexAt input (p + 1)).ch == charNul) = false := by
      rw [hch]; simp [hm.1, hm.2]
    have hdrop' : input.drop (p + 1 + 1) = mid' := by
      have := List.drop_drop 1 (p + 1) input
      rw [hdrop] at this
      simpa using this.symm
    have := ih (p + 1) f hdrop'
      (fun x hx => hmem x (List.mem_cons_of_mem m hx)) (by simp at hfuel; omega)
    simp only [readStringLoop, readChar_mkLexAt, hcond, if_false]
    have harith : p + 1 + mid'.length + 1 = p + (m :: mid').length + 1 := by
      simp only [List.length_cons]; omega
    rw [← harith]
    exact this

theorem mkLexAt_input (input : List Char) (p : Nat) :
    (mkLexAt input p).input = input := rfl

theorem mkLexAt_position (input : List Char) (p : Nat) :
    (mkLexAt input p).position = p := rfl

theorem readString_terminated (pre mid post : List Char)
    (hq : quoteChar ∉ mid) (hn : charNul ∉ mid) :
    (mkLexAt (pre ++ quoteChar :: mid ++ quoteChar :: post)
        pre.length).readString =
      (String.mk mid,
       mkLexAt (pre ++ quoteChar :: mid ++ quoteChar :: post)
         (pre.length + mid.length + 1)) := by
  set input := pre ++ quoteChar :: mid ++ quoteChar :: post with hinput
  have hdrop : input.drop (pre.length + 1) = mid ++ quoteChar :: post := by
    rw [hinput]
    rw [show pre ++ quoteChar :: mid ++ quoteChar :: post =
      (pre ++ [quoteChar]) ++ (mid ++ quoteChar :: post) by simp]
    rw [show pre.length + 1 = (pre ++ [quoteChar]).length by simp]
    exact List.drop_left _ _
  have hlen : input.length = pre.length + mid.length + post.length + 2 := by
    simp only [hinput, List.length_append, List.length_cons]
    omega
  have hloop := readStringLoop_stop input mid pre.length
    (input.length + 1 - pre.length) post quoteChar hdrop (Or.inl rfl)
    (fun x hx => ⟨fun e => hq (e ▸ hx), fun e => hn (e ▸ hx)⟩) (by omega)
  simp only [Lexer.readString, mkLexAt_input, mkLexAt_position]
  rw [hloop]
  simp only [mkLexAt_input, mkLexAt_position]
  rw [hdrop]
  rw [show pre.length + mid.length + 1 - (pre.length + 1) = mid.length
    by omega]
  rw [List.take_left]

theorem readString_unterminated (pre mid : List Char)
    (hq : quoteChar ∉ mid) (hn : charNul ∉ mid) :
    (mkLexAt (pre ++ quoteChar :: mid) pre.length).readString =
      (String.mk mid,
       mkLexAt (pre ++ quoteChar :: mid) (pre.length + mid.length + 1)) := by
  set input := pre ++ quoteChar :: mid with hinput
  have hdrop : input.drop (pre.length + 1) = mid := by
    rw [hinput]
    rw [show pre ++ quoteChar :: mid = (pre ++ [quoteChar]) ++ mid by simp]
    rw [show pre.length + 1 = (pre ++ [quoteChar]).length by simp]
    exact List.drop_left _ _
  have hlen : input.length = pre.length + mid.length + 1 := by
    simp only [hinput, List.length_append, List.length_cons]
    omega
  have hloop := readStringLoop_end input mid pre.length
    (input.length + 1 - pre.length) hdrop
    (fun x hx => ⟨fun e => hq (e ▸ hx), fun e => hn (e ▸ hx)⟩) (by omega)
  simp only [Lexer.readString, mkLexAt_input, mkLexAt_position]
  rw [hloop]
  simp only [mkLexAt_input, mkLexAt_position]
  rw [hdrop]
  rw [show pre.length + mid.length + 1 - (pre.length + 1) = mid.length
    by omega]
  rw [List.take_length]

theorem NextToken_on_quote (l0 : Lexer) (hch : l0.ch = quoteChar)
    (hws : l0.skipWhitespace = l0) :
    l0.NextToken =
      ({ ttype := token.STRING, literal := (l0.readString).fst },
       (l0.readString).snd.readChar) := by
  simp only [Lexer.NextToken, hws, hch,
    show (quoteChar == '=') = false from rfl,
    show (quoteChar == ';') = false from rfl,
    show (quoteChar == ':') = false from rfl,
    show (quoteChar == '(') = false from rfl,
    show (quoteChar == ')') = false from rfl,
    show (quoteChar == ',') = false from rfl,
    show (quoteChar == '+') = false from rfl,
    show (quoteChar == lbraceChar) = false from rfl,
    show (quoteChar == rbraceChar) = false from rfl,
    show (quoteChar == '-') = false from rfl,
    show (quoteChar == '!') = false from rfl,
    show (quoteChar == '/') = false from rfl,
    show (quoteChar == '*') = false from rfl,
    show (quoteChar == '<') = false from rfl,
    show (quoteChar == '>') = false from rfl,
    show (quoteChar == quoteChar) = true from rfl,
    Bool.false_eq_true, if_false, if_true, ite_false, ite_true]

theorem NextToken_on_nul (l0 : Lexer) (hch : l0.ch = charNul)
    (hws : l0.skipWhitespace = l0) :
    l0.NextToken = ({ ttype := token.EOF, literal := "" }, l0.readChar) := by
  simp only [Lexer.NextToken, hws, hch,
    show (charNul == '=') = false from rfl,
    show (charNul == ';') = false from rfl,
    show (charNul == ':') = false from rfl,
    show (charNul == '(') = false from rfl,
    show (charNul == ')') = false from rfl,
    show (charNul == ',') = false from rfl,
    show (charNul == '+') = false from rfl,
    show (charNul == lbraceChar) = false from rfl,
    show (charNul == rbraceChar) = false from rfl,
    show (charNul == '-') = false from rfl,
    show (charNul == '!') = false from rfl,
    show (charNul == '/') = false from rfl,
    show (charNul == '*') = false from rfl,
    show (charNul == '<') = false from rfl,
    show (charNul == '>') = false from rfl,
    show (charNul == quoteChar) = false from rfl,
    show (charNul == '[') = false from rfl,
    show (charNul == ']') = false from rfl,
    show (charNul == charNul) = true from rfl,
    Bool.false_eq_true, if_false, if_true, ite_false, ite_true]

/-- Claim C7: when the lexer encounters a double quote, NextToken returns a
STRING token whose literal is exactly the bytes strictly between the opening
quote and the next double quote, consuming the closing quote (the cursor
lands two past the opening quote plus the literal); for an unterminated
string the literal is everything after the opening quote up to end of input
and the following NextToken call returns the EOF token.  `mkLexAt input p`
is the lexer state with the byte at index `p` under examination — `New`
yields `mkLexAt input 0` and every NextToken step stays in this family. -/
theorem C7_string_lexing :
    (∀ input : List Char, Lexer.New input = mkLexAt input 0)
  ∧ (∀ pre mid post : List Char, quoteChar ∉ mid → charNul ∉ mid →
      Lexer.NextToken (mkLexAt (pre ++ quoteChar :: mid ++ quoteChar :: post)
          pre.length) =
        ({ ttype := token.STRING, literal := String.mk mid },
         mkLexAt (pre ++ quoteChar :: mid ++ quoteChar :: post)
           (pre.length + mid.length + 2)))
  ∧ (∀ pre mid : List Char, quoteChar ∉ mid → charNul ∉ mid →
      Lexer.NextToken (mkLexAt (pre ++ quoteChar :: mid) pre.length) =
        ({ ttype := token.STRING, literal := String.mk mid },
         mkLexAt (pre ++ quoteChar :: mid) (pre.length + mid.length + 2))
      ∧ (Lexer.NextToken (mkLexAt (pre ++ quoteChar :: mid)
          (pre.length + mid.length + 2))).fst =
          { ttype := token.EOF, literal := "" }) := by
  refine ⟨fun input => rfl, ?_, ?_⟩
  · intro pre mid post hq hn
    have hch : (mkLexAt (pre ++ quoteChar :: mid ++ quoteChar :: post)
        pre.length).ch = quoteChar := by
      rw [mkLexAt_ch, List.append_assoc, List.cons_append, getD_append_self]
      rfl
    have hwsc : ((mkLexAt (pre ++ quoteChar :: mid ++ quoteChar :: post)
        pre.length).ch == ' ' ||
        (mkLexAt (pre ++ quoteChar :: mid ++ quoteChar :: post)
          pre.length).ch == '\t' ||
        (mkLexAt (pre ++ quoteChar :: mid ++ quoteChar :: post)
          pre.length).ch == '\n' ||
        (mkLexAt (pre ++ quoteChar :: mid ++ quoteChar :: post)
          pre.length).ch == '\r') = false := by
      rw [hch]; rfl
    rw [NextToken_on_quote _ hch (skipWhitespace_nonws _ hwsc)]
    rw [readString_terminated pre mid post hq hn]
    rfl
  · intro pre mid hq hn
    have hch : (mkLexAt (pre ++ quoteChar :: mid) pre.length).ch =
        quoteChar := by
      rw [mkLexAt_ch, getD_append_self]
      rfl
    have hwsc : ((mkLexAt (pre ++ quoteChar :: mid) pre.length).ch == ' ' ||
        (mkLexAt (pre ++ quoteChar :: mid) pre.length).ch == '\t' ||
        (mkLexAt (pre ++ quoteChar :: mid) pre.length).ch == '\n' ||
        (mkLexAt (pre ++ quoteChar :: mid) pre.length).ch == '\r')
        = false := by
      rw [hch]; rfl
    refine ⟨?_, ?_⟩
    · rw [NextToken_on_quote _ hch (skipWhitespace_nonws _ hwsc)]
      rw [readString_unterminated pre mid hq hn]
      rfl
    · have hlen : (pre ++ quoteChar :: mid).length ≤
          pre.length + mid.length + 2 := by
        simp only [List.length_append, List.length_cons]
        omega
      have hch2 : (mkLexAt (pre ++ quoteChar :: mid)
          (pre.length + mid.length + 2)).ch = charNul := by
        rw [mkLexAt_ch, List.getD_eq_default _ _ hlen]
      have hwsc2 : ((mkLexAt (pre ++ quoteChar :: mid)
          (pre.length + mid.length + 2)).ch == ' ' ||
          (mkLexAt (pre ++ quoteChar :: mid)
            (pre.length + mid.length + 2)).ch == '\t' ||
          (mkLexAt (pre ++ quoteChar :: mid)
            (pre.length + mid.length + 2)).ch == '\n' ||
          (mkLexAt (pre ++ quoteChar :: mid)
            (pre.length + mid.length + 2)).ch == '\r') = false := by
        rw [hch2]; rfl
      rw [NextToken_on_nul _ hch2 (skipWhitespace_nonws _ hwsc2)]

/-- Witness for C7 at concrete inputs: lexing the bytes `("ab")` from the
opening quote returns STRING "ab" with the closing quote consumed, and on
the unterminated `("ab` the literal is still "ab" with EOF next. -/
theorem C7_string_lexing_witness :
    quoteChar ∉ (['a', 'b'] : List Char)
  ∧ charNul ∉ (['a', 'b'] : List Char)
  ∧ Lexer.NextToken (mkLexAt ['(', quoteChar, 'a', 'b', quoteChar, ')'] 1) =
      ({ ttype := token.STRING, literal := "ab" },
       mkLexAt ['(', quoteChar, 'a', 'b', quoteChar, ')'] 5)
  ∧ Lexer.NextToken (mkLexAt ['(', quoteChar, 'a', 'b'] 1) =
      ({ ttype := token.STRING, literal := "ab" },
       mkLexAt ['(', quoteChar, 'a', 'b'] 5)
  ∧ (Lexer.NextToken (mkLexAt ['(', quoteChar, 'a', 'b'] 5)).fst =
      { ttype := token.EOF, literal := "" } := by
  have h1 := C7_string_lexing.2.1 ['('] ['a', 'b'] [')']
    (by decide) (by decide)
  have h2 := C7_string_lexing.2.2 ['('] ['a', 'b'] (by decide) (by decide)
  exact ⟨by decide, by decide, h1, h2.1, h2.2⟩
